import Mathlib

/-!
Verification of the orchestrator workflow in
`backend/api/orchestrator/utils.py` (song generation / review / retry
pipeline).  The filesystem is embedded as the set of existing file paths
(`FS`), external collaborators (the generation handler, the download
handler, the review endpoint) as oracles that either return a value or
raise (`Except String`), and the workflow loop as a fuel-indexed
recursion that also records a trace of the steps it executed.
-/

set_option maxHeartbeats 1000000

/-! ## Path helpers (embedding of the used parts of `os.path`) -/

/-- Embedding of `os.path.basename` (posix): the part of the path after
the last `/`. -/
def basename (p : String) : String :=
  ((p.toList.reverse.takeWhile (fun c => c != '/')).reverse).asString

/-- Whether a path string starts with the separator `/`. -/
def startsWithSlash (s : String) : Bool :=
  match s.toList with
  | [] => false
  | c :: _ => c == '/'

/-- Whether a path string ends with the separator `/`. -/
def endsWithSlash (s : String) : Bool :=
  match s.toList.reverse with
  | [] => false
  | c :: _ => c == '/'

/-- Embedding of `os.path.join` (posix) for two components, as used by
the orchestrator (`os.path.join(final_dir, filename)`). -/
def joinPath (d f : String) : String :=
  if startsWithSlash f then f
  else if d = "" || endsWithSlash d then d ++ f
  else d ++ "/" ++ f

/-- Index of the last occurrence of `c` in `cs`, or `-1` when absent
(mirrors Python `str.rfind`). -/
def lastIndexOfC (cs : List Char) (c : Char) : Int :=
  match cs.reverse.findIdx? (fun x => x == c) with
  | none => -1
  | some i => (cs.length : Int) - 1 - i

/-- Embedding of `os.path.splitext` (posix): split off the extension at
the last dot, provided the dot lies after the last separator and the
basename up to the dot is not made of dots only. -/
def splitextList (cs : List Char) : List Char × List Char :=
  let sepIndex := lastIndexOfC cs '/'
  let dotIndex := lastIndexOfC cs '.'
  if sepIndex < dotIndex then
    let start := (sepIndex + 1).toNat
    let stem := (cs.drop start).take (dotIndex.toNat - start)
    if stem.any (fun x => x != '.') then
      (cs.take dotIndex.toNat, cs.drop dotIndex.toNat)
    else (cs, [])
  else (cs, [])

/-- `os.path.splitext` on strings. -/
def splitext (p : String) : String × String :=
  let q := splitextList p.toList
  (q.1.asString, q.2.asString)

/-- The fail-safe filename built in `handle_failsafe_songs`
(lines 535-537): `name_part + "_FAILSAFE" + ext` of the basename. -/
def failsafeName (file_path : String) : String :=
  let original_filename := basename file_path
  let q := splitext original_filename
  q.1 ++ "_FAILSAFE" ++ q.2

/-! ## Filesystem model: the set of existing file paths -/

/-- A filesystem state: the list of paths that currently exist. -/
abbrev FS := List String

/-- Embedding of `os.path.exists`. -/
def fsExists (fs : FS) (p : String) : Bool := decide (p ∈ fs)

/-- Embedding of `os.remove`. -/
def fsRemove (fs : FS) (p : String) : FS := fs.filter (fun q => decide (q ≠ p))

/-- A path coming into existence (target of a move / download). -/
def fsAdd (fs : FS) (p : String) : FS := if p ∈ fs then fs else p :: fs

/-- Embedding of `shutil.move` on files: the source stops existing, the
destination exists afterwards. -/
def fsMove (fs : FS) (src dst : String) : FS := fsAdd (fsRemove fs src) dst

theorem mem_fsRemove {fs : FS} {p a : String} :
    a ∈ fsRemove fs p ↔ a ∈ fs ∧ a ≠ p := by
  simp [fsRemove, List.mem_filter]

theorem mem_fsAdd {fs : FS} {p a : String} :
    a ∈ fsAdd fs p ↔ a ∈ fs ∨ a = p := by
  unfold fsAdd
  by_cases h : p ∈ fs
  · simp only [if_pos h]
    constructor
    · exact fun ha => Or.inl ha
    · rintro (ha | rfl) <;> [exact ha; exact h]
  · simp only [if_neg h, List.mem_cons]
    tauto

theorem mem_fsMove {fs : FS} {src dst a : String} :
    a ∈ fsMove fs src dst ↔ (a ∈ fs ∧ a ≠ src) ∨ a = dst := by
  simp [fsMove, mem_fsAdd, mem_fsRemove]

/-! ## Data model -/

/-- An artifact staged by the retrieval step (`download_both_songs`
builds dicts `{file_path, index, title}`). -/
structure Artifact where
  file_path : String
  index : Int
  title : String
deriving DecidableEq, Repr

/-- A per-song review record as built by `review_all_songs`
(lines 317-323); `review_details` is dropped as the routers never read
it. -/
structure ReviewResult where
  file_path : String
  index : Int
  title : String
  verdict : String
deriving DecidableEq, Repr

/-! ## Verdict routing (normal mode), `process_song_verdicts`,
lines 381-423 -/

/-- State threaded through `process_song_verdicts`. -/
structure VerdictOutcome where
  fs : FS
  kept_count : Nat
  deleted_count : Nat
deriving DecidableEq, Repr

/-- One iteration of the loop of `process_song_verdicts`: `continue`
moves the file to the final directory, `re-roll` deletes it, anything
else leaves it in place; a missing file is skipped. -/
def processVerdictStep (final_dir : String) (st : VerdictOutcome)
    (result : ReviewResult) : VerdictOutcome :=
  let file_path := result.file_path
  if result.verdict = "continue" then
    let final_path := joinPath final_dir (basename file_path)
    if fsExists st.fs file_path then
      { fs := fsMove st.fs file_path final_path,
        kept_count := st.kept_count + 1,
        deleted_count := st.deleted_count }
    else st
  else if result.verdict = "re-roll" then
    if fsExists st.fs file_path then
      { fs := fsRemove st.fs file_path,
        kept_count := st.kept_count,
        deleted_count := st.deleted_count + 1 }
    else st
  else st

/-- Embedding of `process_song_verdicts` (normal-mode verdict routing). -/
def process_song_verdicts (review_results : List ReviewResult)
    (final_dir : String) (fs : FS) : VerdictOutcome :=
  review_results.foldl (processVerdictStep final_dir) ⟨fs, 0, 0⟩

/-! ## Verdict routing (final-attempt mode),
`process_song_verdicts_final_attempt`, lines 426-486 -/

/-- State threaded through `process_song_verdicts_final_attempt`. -/
structure FinalVerdictOutcome where
  fs : FS
  kept_count : Nat
  deleted_count : Nat
  preserved_count : Nat
deriving DecidableEq, Repr

/-- One iteration of the loop of `process_song_verdicts_final_attempt`:
`continue` moves as in normal mode, `re-roll` and every other verdict
leave the file in staging (counted as preserved when applicable). -/
def processFinalVerdictStep (final_dir : String) (st : FinalVerdictOutcome)
    (result : ReviewResult) : FinalVerdictOutcome :=
  let file_path := result.file_path
  if result.verdict = "continue" then
    let final_path := joinPath final_dir (basename file_path)
    if fsExists st.fs file_path then
      { st with fs := fsMove st.fs file_path final_path,
                kept_count := st.kept_count + 1 }
    else st
  else if result.verdict = "re-roll" then
    if fsExists st.fs file_path then
      { st with preserved_count := st.preserved_count + 1 }
    else st
  else
    { st with preserved_count := st.preserved_count + 1 }

/-- Embedding of `process_song_verdicts_final_attempt`. -/
def process_song_verdicts_final_attempt (review_results : List ReviewResult)
    (final_dir : String) (fs : FS) : FinalVerdictOutcome :=
  review_results.foldl (processFinalVerdictStep final_dir) ⟨fs, 0, 0, 0⟩

/-! ## Fail-safe handler, `handle_failsafe_songs`, lines 509-558 -/

/-- State threaded through `handle_failsafe_songs`. -/
structure FailsafeOutcome where
  fs : FS
  moved_count : Nat
  error_count : Nat
deriving DecidableEq, Repr

/-- One iteration of `handle_failsafe_songs`: an existing file is moved
to the final directory under its `_FAILSAFE`-marked name, a missing file
is counted as an error. -/
def handleFailsafeStep (final_dir : String) (st : FailsafeOutcome)
    (song : Artifact) : FailsafeOutcome :=
  let file_path := song.file_path
  if fsExists st.fs file_path then
    let final_path := joinPath final_dir (failsafeName file_path)
    { fs := fsMove st.fs file_path final_path,
      moved_count := st.moved_count + 1,
      error_count := st.error_count }
  else
    { st with error_count := st.error_count + 1 }

/-- Embedding of `handle_failsafe_songs`. -/
def handle_failsafe_songs (final_attempt_songs : List Artifact)
    (final_dir : String) (fs : FS) : FailsafeOutcome :=
  final_attempt_songs.foldl (handleFailsafeStep final_dir) ⟨fs, 0, 0⟩

/-- Embedding of `verify_final_destination_folder` (lines 489-506). -/
def verify_final_destination_folder : String := "backend/songs/final_review"

/-! ## External adapters

The external collaborators (`generate_song_handler`,
`download_song_handler`, the review endpoint) live outside this
repository; following §6 of the design they are embedded as oracles.
An oracle returning `Except.error e` models the collaborator raising an
exception with message `e`. -/

/-- Result dict of `generate_songs` (lines 214-233). -/
structure GenResult where
  success : Bool
  error : String
deriving DecidableEq, Repr

/-- Embedding of `generate_songs`: the handler outcome is `.ok true`
(valid successful dict), `.ok false` (missing / invalid / unsuccessful
dict) or `.error e` (raised); every exception is absorbed into a
reported failure. -/
def generate_songs (handler : Except String Bool) : GenResult :=
  match handler with
  | .error e => { success := false, error := "Song generation failed: " ++ e }
  | .ok true => { success := true, error := "" }
  | .ok false => { success := false, error := "Song generation returned invalid result" }

/-- Result dict of one `download_song_handler` call. -/
structure DlRes where
  success : Bool
  file_path : String
deriving DecidableEq, Repr

/-- Result dict of `download_both_songs`. -/
structure DownloadBothResult where
  success : Bool
  downloads : List Artifact
  error : String
deriving DecidableEq, Repr

/-- The artifact list built by the two fetches of
`download_both_songs` (lines 251-277). -/
def mkArtifacts (title : String) (d1 d2 : DlRes) : List Artifact :=
  (if d1.success then [{ file_path := d1.file_path, index := -1, title := title }] else [])
    ++ (if d2.success then [{ file_path := d2.file_path, index := -2, title := title }] else [])

/-- Embedding of `download_both_songs` (lines 236-299): fetch positions
`-1` and `-2` in order; a raise from either handler call is caught by
the surrounding `try` and yields an overall failure; otherwise success
iff at least one artifact was staged.  `temp_dir` is the staging
directory passed through to the handler. -/
def download_both_songs (handler : Int → Except String DlRes)
    (title temp_dir : String) : DownloadBothResult :=
  let _ := temp_dir
  match handler (-1) with
  | .error e =>
      { success := false, downloads := [], error := "Download process failed: " ++ e }
  | .ok d1 =>
    match handler (-2) with
    | .error e =>
        { success := false, downloads := [], error := "Download process failed: " ++ e }
    | .ok d2 =>
      let downloaded_songs := mkArtifacts title d1 d2
      if downloaded_songs.isEmpty then
        { success := false, downloads := [], error := "Failed to download any songs" }
      else
        { success := true, downloads := downloaded_songs, error := "" }

/-- The review endpoint's response object (fields used by the
orchestrator). -/
structure ReviewResponse where
  success : Bool
  verdict : String
  error : Option String
deriving DecidableEq, Repr

/-- Result dict of `call_review_api`. -/
structure ReviewApiResult where
  success : Bool
  verdict : String
  error : Option String
deriving DecidableEq, Repr

/-- Embedding of `call_review_api` (lines 339-378): the endpoint is
called with the structure id defaulting to `0` when absent
(`song_structure_id or 0`); any raised exception is absorbed into the
result dict `{success: false, verdict: "error"}`. -/
def call_review_api (endpoint : String → Int → Except String ReviewResponse)
    (file_path : String) (song_structure_id : Option Int) : ReviewApiResult :=
  match endpoint file_path (song_structure_id.getD 0) with
  | .ok resp => { success := resp.success, verdict := resp.verdict, error := resp.error }
  | .error e =>
      { success := false, verdict := "error",
        error := some ("AI review API call failed: " ++ e) }

/-- Embedding of `review_all_songs` (lines 302-336): review each
downloaded song sequentially, in order, producing one verdict record
per song; `call_review_api` absorbs every exception, so the loop is
total (the outer `except` branch of the source is unreachable). -/
def review_all_songs (endpoint : String → Int → Except String ReviewResponse)
    (downloaded_songs : List Artifact) (song_structure_id : Option Int) :
    List ReviewResult :=
  downloaded_songs.map (fun song =>
    let review_result := call_review_api endpoint song.file_path song_structure_id
    { file_path := song.file_path, index := song.index, title := song.title,
      verdict := review_result.verdict })

/-! ## The workflow orchestrator, `execute_song_workflow`, lines 15-211 -/

/-- The `attempt_details` dict (lines 77-83); `final_action` starts as
the empty string (source: `None`). -/
structure AttemptRecord where
  attempt_number : Nat
  generation_success : Bool
  downloads : List Artifact
  reviews : List ReviewResult
  final_action : String
deriving DecidableEq, Repr

/-- The `workflow_details` dict (lines 63-69). -/
structure WorkflowDetails where
  attempts : List AttemptRecord
  total_songs_generated : Nat
  total_songs_reviewed : Nat
  songs_kept : Nat
  songs_deleted : Nat
deriving DecidableEq, Repr

/-- `workflow_details["attempts"].append(...)`. -/
def appendAttempt (d : WorkflowDetails) (rec : AttemptRecord) : WorkflowDetails :=
  { d with attempts := d.attempts ++ [rec] }

/-- The aggregate result dict of `execute_song_workflow`.  The source
returns plain dicts whose key sets differ between return sites:
`good_songs`, `re_rolled_songs` and `error` are `Option`s, `none`
meaning the key is absent from the returned dict. -/
structure WorkflowResult where
  success : Bool
  message : String
  total_attempts : Nat
  final_songs_count : Nat
  good_songs : Option Nat
  re_rolled_songs : Option Nat
  error : Option String
  workflow_details : WorkflowDetails
deriving DecidableEq, Repr

/-- Observable steps of a run, used to state which steps executed.  A
`routeStep` records whether final-attempt mode was used and the
`kept_count` the routing produced. -/
inductive Event where
  | genStep (n : Nat)
  | downloadStep (n : Nat)
  | reviewStep (n : Nat) (songs : List Artifact)
  | routeStep (n : Nat) (finalMode : Bool) (kept : Nat)
  | failsafeStep (songs : List Artifact)
deriving DecidableEq, Repr

/-- The attempt an event belongs to (`none` for the fail-safe step). -/
def eventAttempt : Event → Option Nat
  | .genStep n => some n
  | .downloadStep n => some n
  | .reviewStep n _ => some n
  | .routeStep n _ _ => some n
  | .failsafeStep _ => none

/-- The mutable state of one workflow run: the filesystem, the
`workflow_details` dict, the captured fail-safe candidate set
(`final_attempt_songs`, line 72) and the trace of executed steps. -/
structure WFState where
  fs : FS
  details : WorkflowDetails
  final_attempt_songs : List Artifact
  trace : List Event
deriving DecidableEq, Repr

/-- The external world as seen by one attempt: the outcome of the
generation handler, of the wait, of each download-handler call and of
each review call.  `sleepExc`, `reviewStepExc` and `routeStepExc` model
an unexpected exception (the spec's `AttemptException`) surfacing at
the corresponding step, before the step performs any file operation;
such an exception escapes to the attempt-boundary `except` of
`execute_song_workflow` (line 161). -/
structure AttemptEnv where
  gen : Except String Bool
  sleepExc : Option String
  dl : Int → Except String DlRes
  reviewStepExc : Option String
  rev : String → Int → Except String ReviewResponse
  routeStepExc : Option String

/-- Outcome of the `try` block of one attempt: it either runs to
completion (`normal`, with an optional immediate return value), or an
exception escapes to the attempt boundary (`raised`, carrying the state
and the partially built `attempt_details` at the raise point). -/
inductive BodyResult where
  | normal (st : WFState) (ret : Option WorkflowResult)
  | raised (st : WFState) (rec : AttemptRecord) (msg : String)

/-- The state carried by a `BodyResult`. -/
def BodyResult.stOf : BodyResult → WFState
  | .normal st _ => st
  | .raised st _ _ => st

/-- `max_attempts = 3` (line 71). -/
def max_attempts : Nat := 3

/-- Staging directory (line 54). -/
def temp_dir : String := "backend/songs/temp"

/-- Step 6 of an attempt (lines 141-159): return immediately when the
routing kept at least one song, otherwise record the rejection and let
the loop move on. -/
def finishAttempt (n : Nat) (st : WFState) (rec : AttemptRecord)
    (kept deleted : Nat) : BodyResult :=
  if 0 < kept then
    let recS := { rec with
      final_action := "success: " ++ toString kept ++ " songs kept" }
    let d := appendAttempt st.details recS
    .normal { st with details := d }
      (some { success := true,
              message := "🎼 Workflow completed successfully on attempt "
                           ++ toString n ++ "!",
              total_attempts := n,
              final_songs_count := kept,
              good_songs := some kept,
              re_rolled_songs := some deleted,
              error := none,
              workflow_details := d })
  else
    let recR := { rec with
      final_action := "all_songs_rejected: retrying_attempt_" ++ toString (n + 1) }
    .normal { st with details := appendAttempt st.details recR } none

/-- The verdict routing call of step 5 (lines 132-135), selecting the
mode by attempt position; projected to the common
`{fs, kept_count, deleted_count}` fields. -/
def routedNums (n : Nat) (final_dir : String) (reviews : List ReviewResult)
    (fs : FS) : VerdictOutcome :=
  if n = max_attempts then
    let o := process_song_verdicts_final_attempt reviews final_dir fs
    { fs := o.fs, kept_count := o.kept_count, deleted_count := o.deleted_count }
  else process_song_verdicts reviews final_dir fs

/-- Step 5 of an attempt (lines 128-138): route the verdicts, in
final-attempt mode when `n = max_attempts`. -/
def routeStage (env : AttemptEnv) (n : Nat) (final_dir : String)
    (st : WFState) (rec : AttemptRecord) (reviews : List ReviewResult) :
    BodyResult :=
  match env.routeStepExc with
  | some e => .raised st rec e
  | none =>
    let vr := routedNums n final_dir reviews st.fs
    let st' := { st with
      fs := vr.fs,
      trace := st.trace ++ [Event.routeStep n (decide (n = max_attempts)) vr.kept_count],
      details := { st.details with
        songs_kept := st.details.songs_kept + vr.kept_count,
        songs_deleted := st.details.songs_deleted + vr.deleted_count } }
    finishAttempt n st' rec vr.kept_count vr.deleted_count

/-- Step 4 of an attempt (lines 121-126): review all downloaded songs. -/
def reviewStage (env : AttemptEnv) (n : Nat) (final_dir : String)
    (ssid : Option Int) (st : WFState) (rec : AttemptRecord)
    (songs : List Artifact) : BodyResult :=
  match env.reviewStepExc with
  | some e => .raised st rec e
  | none =>
    let reviews := review_all_songs env.rev songs ssid
    let rec' := { rec with reviews := reviews }
    let st' := { st with
      trace := st.trace ++ [Event.reviewStep n songs],
      details := { st.details with
        total_songs_reviewed := st.details.total_songs_reviewed + reviews.length } }
    routeStage env n final_dir st' rec' reviews

/-- Step 3 of an attempt (lines 104-119): download both songs; on
success the staged files come into existence and, on the final attempt,
are captured as the fail-safe candidate set. -/
def downloadStage (env : AttemptEnv) (n : Nat) (final_dir title : String)
    (ssid : Option Int) (st : WFState) (rec : AttemptRecord) : BodyResult :=
  let st1 := { st with trace := st.trace ++ [Event.downloadStep n] }
  let dr := download_both_songs env.dl title temp_dir
  if !dr.success then
    let rec' := { rec with final_action := "download_failed: " ++ dr.error }
    .normal { st1 with details := appendAttempt st1.details rec' } none
  else
    let songs := dr.downloads
    let rec' := { rec with downloads := songs }
    let st2 := { st1 with fs := songs.foldl (fun a s => fsAdd a s.file_path) st1.fs }
    let st3 := if n = max_attempts then { st2 with final_attempt_songs := songs } else st2
    reviewStage env n final_dir ssid st3 rec' songs

/-- The `try` block of one attempt (lines 85-159): steps 1 and 2, then
the later stages. -/
def runAttempt (env : AttemptEnv) (n : Nat) (final_dir title : String)
    (ssid : Option Int) (st : WFState) : BodyResult :=
  let rec0 : AttemptRecord :=
    { attempt_number := n, generation_success := false,
      downloads := [], reviews := [], final_action := "" }
  let st1 := { st with trace := st.trace ++ [Event.genStep n] }
  let g := generate_songs env.gen
  if !g.success then
    let rec' := { rec0 with final_action := "generation_failed: " ++ g.error }
    .normal { st1 with details := appendAttempt st1.details rec' } none
  else
    let rec1 := { rec0 with generation_success := true }
    let st2 := { st1 with details := { st1.details with
      total_songs_generated := st1.details.total_songs_generated + 2 } }
    match env.sleepExc with
    | some e => .raised st2 rec1 e
    | none => downloadStage env n final_dir title ssid st2 rec1

/-- The attempt-boundary `except` handler (lines 161-167): record the
exception in the attempt history. -/
def recordException (n : Nat) (st : WFState) (rec : AttemptRecord)
    (msg : String) : WFState :=
  let recE : AttemptRecord := { rec with
    final_action := "exception: Critical error on attempt " ++ toString n ++ ": " ++ msg }
  { st with details := appendAttempt st.details recE }

/-- The post-loop fail-safe evaluation and the two terminal
success-true returns (lines 180-211). -/
def postLoop (final_dir : String) (st : WFState) : WorkflowResult × WFState :=
  if st.final_attempt_songs.isEmpty then
    ({ success := true,
       message := "🎼 Max attempts (" ++ toString max_attempts
         ++ ") reached. All generated songs were rejected by AI review. No songs were successfully downloaded in final attempt.",
       total_attempts := max_attempts,
       final_songs_count := 0,
       good_songs := some 0,
       re_rolled_songs := some st.details.songs_deleted,
       error := none,
       workflow_details := st.details }, st)
  else
    let failsafe_result := handle_failsafe_songs st.final_attempt_songs final_dir st.fs
    let moved := failsafe_result.moved_count
    let d := { st.details with songs_kept := st.details.songs_kept + moved }
    let st' := { st with
      fs := failsafe_result.fs,
      details := d,
      trace := st.trace ++ [Event.failsafeStep st.final_attempt_songs] }
    if 0 < moved then
      ({ success := true,
         message := "🎼 Max attempts (" ++ toString max_attempts
           ++ ") reached. AI rejected all songs, but fail-safe activated: "
           ++ toString moved
           ++ " song(s) from final attempt moved to final_review as backup.",
         total_attempts := max_attempts,
         final_songs_count := moved,
         good_songs := some 0,
         re_rolled_songs := some d.songs_deleted,
         error := none,
         workflow_details := d }, st')
    else
      ({ success := true,
         message := "🎼 Max attempts (" ++ toString max_attempts
           ++ ") reached. All generated songs were rejected by AI review. No songs were successfully downloaded in final attempt.",
         total_attempts := max_attempts,
         final_songs_count := 0,
         good_songs := some 0,
         re_rolled_songs := some d.songs_deleted,
         error := none,
         workflow_details := d }, st')

/-- The fatal return of the attempt-boundary handler on the last
attempt (lines 169-178). -/
def fatalResult (n : Nat) (error_msg : String) (d : WorkflowDetails) :
    WorkflowResult :=
  { success := false,
    message := "🎼 Workflow failed after " ++ toString max_attempts ++ " attempts",
    total_attempts := n,
    final_songs_count := 0,
    good_songs := none,
    re_rolled_songs := none,
    error := some error_msg,
    workflow_details := d }

/-- The retry loop (lines 74-178) from attempt `n` on, with `fuel`
iterations left; when the fuel runs out the post-loop fail-safe code
runs. -/
def runAttemptsFrom (env : Nat → AttemptEnv) (final_dir title : String)
    (ssid : Option Int) : Nat → Nat → WFState → WorkflowResult × WFState
  | 0, _, st => postLoop final_dir st
  | fuel + 1, n, st =>
    match runAttempt (env n) n final_dir title ssid st with
    | .normal st' (some res) => (res, st')
    | .normal st' none => runAttemptsFrom env final_dir title ssid fuel (n + 1) st'
    | .raised st' rec msg =>
      let error_msg := "Critical error on attempt " ++ toString n ++ ": " ++ msg
      let st'' := recordException n st' rec msg
      if n = max_attempts then (fatalResult n error_msg st''.details, st'')
      else runAttemptsFrom env final_dir title ssid fuel (n + 1) st''

/-- Initial run state (lines 63-72): empty history, no captured
fail-safe candidates, the ambient filesystem `fs0`. -/
def initState (fs0 : FS) : WFState :=
  { fs := fs0,
    details := { attempts := [], total_songs_generated := 0,
                 total_songs_reviewed := 0, songs_kept := 0, songs_deleted := 0 },
    final_attempt_songs := [],
    trace := [] }

/-- Embedding of `execute_song_workflow`: run up to three attempts from
attempt 1.  Returns the aggregate result together with the final run
state (filesystem and trace), which the source holds implicitly. -/
def execute_song_workflow (env : Nat → AttemptEnv) (title : String)
    (song_structure_id : Option Int) (fs0 : FS) : WorkflowResult × WFState :=
  runAttemptsFrom env verify_final_destination_folder title song_structure_id
    max_attempts 1 (initState fs0)

/-- The run reaches attempt `n` in state `st`: attempts `1..n-1` all
ended in an advance transition (reported failure, rejection, or a
recorded boundary exception before the last attempt). -/
inductive Reaches (env : Nat → AttemptEnv) (final_dir title : String)
    (ssid : Option Int) (st0 : WFState) : Nat → WFState → Prop where
  | init : Reaches env final_dir title ssid st0 1 st0
  | next (n : Nat) (st st' : WFState) :
      n < max_attempts →
      Reaches env final_dir title ssid st0 n st →
      runAttempt (env n) n final_dir title ssid st = .normal st' none →
      Reaches env final_dir title ssid st0 (n + 1) st'
  | nextRaised (n : Nat) (st st' : WFState) (rec : AttemptRecord) (msg : String) :
      n < max_attempts →
      Reaches env final_dir title ssid st0 n st →
      runAttempt (env n) n final_dir title ssid st = .raised st' rec msg →
      Reaches env final_dir title ssid st0 (n + 1) (recordException n st' rec msg)

example : failsafeName "backend/songs/temp/song1.mp3" = "song1_FAILSAFE.mp3" := by
  decide

/-! ## Lemmas about the final-attempt verdict router -/

theorem finalFold_deleted (final_dir : String) :
    ∀ (l : List ReviewResult) (st : FinalVerdictOutcome),
      (l.foldl (processFinalVerdictStep final_dir) st).deleted_count = st.deleted_count := by
  intro l
  induction l with
  | nil => intro st; rfl
  | cons q t ih =>
    intro st
    rw [List.foldl_cons, ih]
    unfold processFinalVerdictStep
    dsimp only
    split <;> (try split) <;> (try split) <;> rfl

theorem finalFold_preserve (final_dir : String) :
    ∀ (l : List ReviewResult) (st : FinalVerdictOutcome) (p : String),
      p ∈ st.fs → (∀ q ∈ l, q.verdict = "continue" → q.file_path ≠ p) →
      p ∈ (l.foldl (processFinalVerdictStep final_dir) st).fs := by
  intro l
  induction l with
  | nil => intro st p hp _; exact hp
  | cons q t ih =>
    intro st p hp hq
    rw [List.foldl_cons]
    refine ih _ p ?_ (fun r hr => hq r (List.mem_cons_of_mem q hr))
    unfold processFinalVerdictStep
    dsimp only
    split
    · next hcont =>
      split
      · next =>
        simp only [mem_fsMove]
        exact Or.inl ⟨hp, fun h => hq q (List.mem_cons_self q t) hcont (h ▸ rfl)⟩
      · exact hp
    · split
      · split <;> exact hp
      · exact hp

/-! ## Lemmas about the normal-mode verdict router -/

/-- The final-storage destination of a routed artifact (lines 393-394). -/
def finalPathOf (final_dir : String) (r : ReviewResult) : String :=
  joinPath final_dir (basename r.file_path)

theorem fsExists_iff {fs : FS} {p : String} : fsExists fs p = true ↔ p ∈ fs := by
  simp [fsExists]

/-- Number of artifacts the normal router keeps, measured on a fixed
filesystem. -/
def countKept (l : List ReviewResult) (fs : FS) : Nat :=
  l.countP (fun r => decide (r.verdict = "continue") && fsExists fs r.file_path)

/-- Number of artifacts the normal router deletes, measured on a fixed
filesystem. -/
def countDel (l : List ReviewResult) (fs : FS) : Nat :=
  l.countP (fun r => decide (r.verdict = "re-roll") && fsExists fs r.file_path)

/-- A single normal-mode routing step only touches the artifact's own
staging path and its final-storage destination. -/
theorem step_mem_iff (final_dir : String) (r : ReviewResult) (st : VerdictOutcome)
    (x : String) (hx : x ≠ r.file_path) (hfp : x ≠ finalPathOf final_dir r) :
    x ∈ (processVerdictStep final_dir st r).fs ↔ x ∈ st.fs := by
  unfold processVerdictStep
  dsimp only
  split
  · split
    · simp only [mem_fsMove, finalPathOf] at *
      constructor
      · rintro (⟨h, _⟩ | h) <;> [exact h; exact absurd h hfp]
      · intro h; exact Or.inl ⟨h, hx⟩
    · exact Iff.rfl
  · split
    · split
      · simp only [mem_fsRemove]
        exact ⟨fun h => h.1, fun h => ⟨h, hx⟩⟩
      · exact Iff.rfl
    · exact Iff.rfl

/-- Normal-mode routing leaves alone every path that is neither a routed
staging path nor a routed final destination. -/
theorem normalFold_mem_iff (final_dir : String) :
    ∀ (l : List ReviewResult) (st : VerdictOutcome) (x : String),
      (∀ q ∈ l, x ≠ q.file_path) → (∀ q ∈ l, x ≠ finalPathOf final_dir q) →
      (x ∈ (l.foldl (processVerdictStep final_dir) st).fs ↔ x ∈ st.fs) := by
  intro l
  induction l with
  | nil => intro st x _ _; exact Iff.rfl
  | cons q t ih =>
    intro st x h1 h2
    rw [List.foldl_cons]
    rw [ih _ x (fun r hr => h1 r (List.mem_cons_of_mem q hr))
        (fun r hr => h2 r (List.mem_cons_of_mem q hr))]
    exact step_mem_iff final_dir q st x (h1 q (List.mem_cons_self q t))
      (h2 q (List.mem_cons_self q t))

/-- A normal-mode routing step never removes a path other than the
routed artifact's own staging path. -/
theorem step_mem_of_mem (final_dir : String) (r : ReviewResult)
    (st : VerdictOutcome) (x : String) (hx : x ∈ st.fs)
    (hne : x ≠ r.file_path) : x ∈ (processVerdictStep final_dir st r).fs := by
  unfold processVerdictStep
  dsimp only
  split
  · split
    · exact mem_fsMove.mpr (Or.inl ⟨hx, hne⟩)
    · exact hx
  · split
    · split
      · exact mem_fsRemove.mpr ⟨hx, hne⟩
      · exact hx
    · exact hx

/-- A normal-mode routing step never adds a path other than the routed
artifact's final-storage destination. -/
theorem step_not_mem (final_dir : String) (r : ReviewResult)
    (st : VerdictOutcome) (x : String) (hx : x ∉ st.fs)
    (hne : x ≠ finalPathOf final_dir r) :
    x ∉ (processVerdictStep final_dir st r).fs := by
  unfold processVerdictStep
  dsimp only
  split
  · split
    · intro h
      rcases mem_fsMove.mp h with ⟨h1, _⟩ | h1
      · exact hx h1
      · exact hne h1
    · exact hx
  · split
    · split
      · intro h; exact hx (mem_fsRemove.mp h).1
      · exact hx
    · exact hx

/-- Normal-mode routing never removes a path that is not some routed
artifact's staging path. -/
theorem normalFold_mem_of_mem (final_dir : String) :
    ∀ (l : List ReviewResult) (st : VerdictOutcome) (x : String),
      x ∈ st.fs → (∀ q ∈ l, x ≠ q.file_path) →
      x ∈ (l.foldl (processVerdictStep final_dir) st).fs := by
  intro l
  induction l with
  | nil => intro st x hx _; exact hx
  | cons q t ih =>
    intro st x hx h
    rw [List.foldl_cons]
    exact ih _ x (step_mem_of_mem final_dir q st x hx (h q (List.mem_cons_self q t)))
      (fun s hs => h s (List.mem_cons_of_mem q hs))

/-- Normal-mode routing never adds a path that is not some routed
artifact's final-storage destination. -/
theorem normalFold_not_mem (final_dir : String) :
    ∀ (l : List ReviewResult) (st : VerdictOutcome) (x : String),
      x ∉ st.fs → (∀ q ∈ l, x ≠ finalPathOf final_dir q) →
      x ∉ (l.foldl (processVerdictStep final_dir) st).fs := by
  intro l
  induction l with
  | nil => intro st x hx _; exact hx
  | cons q t ih =>
    intro st x hx h
    rw [List.foldl_cons]
    exact ih _ x (step_not_mem final_dir q st x hx (h q (List.mem_cons_self q t)))
      (fun s hs => h s (List.mem_cons_of_mem q hs))

/-- The kept / deleted counters of normal-mode routing: each routed
artifact with verdict `continue` (resp. `re-roll`) and an existing
staging file contributes exactly one to `kept_count`
(resp. `deleted_count`); missing files and `error` verdicts contribute
to neither. -/
theorem normalFold_counts (final_dir : String) :
    ∀ (l : List ReviewResult) (st : VerdictOutcome),
      (l.map (fun r => r.file_path)).Nodup →
      (∀ r ∈ l, ∀ q ∈ l, finalPathOf final_dir q ≠ r.file_path) →
      (l.foldl (processVerdictStep final_dir) st).kept_count
          = st.kept_count + countKept l st.fs ∧
      (l.foldl (processVerdictStep final_dir) st).deleted_count
          = st.deleted_count + countDel l st.fs := by
  intro l
  induction l with
  | nil => intro st _ _; exact ⟨rfl, rfl⟩
  | cons q t ih =>
    intro st hnd hsep
    rw [List.map_cons, List.nodup_cons] at hnd
    have htrans : ∀ s ∈ t,
        (s.file_path ∈ (processVerdictStep final_dir st q).fs ↔ s.file_path ∈ st.fs) := by
      intro s hs
      refine step_mem_iff final_dir q st s.file_path ?_ ?_
      · intro h
        exact hnd.1 (h ▸ List.mem_map_of_mem (fun r => r.file_path) hs)
      · exact Ne.symm (hsep s (List.mem_cons_of_mem q hs) q (List.mem_cons_self q t))
    have hck : countKept t (processVerdictStep final_dir st q).fs = countKept t st.fs := by
      unfold countKept
      refine List.countP_congr ?_
      intro s hs
      simp only [Bool.and_eq_true, decide_eq_true_eq, fsExists_iff]
      rw [htrans s hs]
    have hcd : countDel t (processVerdictStep final_dir st q).fs = countDel t st.fs := by
      unfold countDel
      refine List.countP_congr ?_
      intro s hs
      simp only [Bool.and_eq_true, decide_eq_true_eq, fsExists_iff]
      rw [htrans s hs]
    have iht := ih (processVerdictStep final_dir st q)
      hnd.2 (fun r hr s hs => hsep r (List.mem_cons_of_mem q hr) s (List.mem_cons_of_mem q hs))
    rw [List.foldl_cons]
    rw [iht.1, iht.2, hck, hcd]
    clear iht hck hcd htrans
    unfold countKept countDel processVerdictStep
    dsimp only
    rw [List.countP_cons, List.countP_cons]
    split
    · next hc =>
      have h1 : decide (q.verdict = "continue") = true := by rw [hc]; rfl
      have h2 : decide (q.verdict = "re-roll") = false := by rw [hc]; rfl
      split
      · next he =>
        simp [h1, h2, he]
        omega
      · next he =>
        have h3 : fsExists st.fs q.file_path = false := by
          simpa using he
        simp [h1, h2, h3]
    · next hc =>
      have h1 : decide (q.verdict = "continue") = false := by
        simpa using hc
      split
      · next hr =>
        have h2 : decide (q.verdict = "re-roll") = true := by rw [hr]; rfl
        split
        · next he =>
          simp [h1, h2, he]
          omega
        · next he =>
          have h3 : fsExists st.fs q.file_path = false := by
            simpa using he
          simp [h1, h2, h3]
      · next hr =>
        have h2 : decide (q.verdict = "re-roll") = false := by
          simpa using hr
        simp [h1, h2]

theorem step_continue_fs (final_dir : String) (q : ReviewResult)
    (st : VerdictOutcome) (hc : q.verdict = "continue")
    (he : q.file_path ∈ st.fs) :
    (processVerdictStep final_dir st q).fs
      = fsMove st.fs q.file_path (finalPathOf final_dir q) := by
  unfold processVerdictStep
  dsimp only
  rw [if_pos hc, if_pos (fsExists_iff.mpr he)]
  rfl

theorem step_reroll_fs (final_dir : String) (q : ReviewResult)
    (st : VerdictOutcome) (hc : q.verdict ≠ "continue")
    (hr : q.verdict = "re-roll") (he : q.file_path ∈ st.fs) :
    (processVerdictStep final_dir st q).fs = fsRemove st.fs q.file_path := by
  unfold processVerdictStep
  dsimp only
  rw [if_neg hc, if_pos hr, if_pos (fsExists_iff.mpr he)]

theorem step_error_eq (final_dir : String) (q : ReviewResult)
    (st : VerdictOutcome) (hc : q.verdict ≠ "continue")
    (hr : q.verdict ≠ "re-roll") :
    processVerdictStep final_dir st q = st := by
  unfold processVerdictStep
  dsimp only
  rw [if_neg hc, if_neg hr]

/-- Normal-mode routing of a `continue` artifact with an existing
staging file: afterwards the artifact is in final storage and no longer
in staging. -/
theorem normalFold_continue (final_dir : String) :
    ∀ (l : List ReviewResult) (st : VerdictOutcome),
      (l.map (fun r => r.file_path)).Nodup →
      (∀ r ∈ l, ∀ q ∈ l, finalPathOf final_dir q ≠ r.file_path) →
      ∀ r ∈ l, r.verdict = "continue" → r.file_path ∈ st.fs →
        finalPathOf final_dir r ∈ (l.foldl (processVerdictStep final_dir) st).fs ∧
        r.file_path ∉ (l.foldl (processVerdictStep final_dir) st).fs := by
  intro l
  induction l with
  | nil => intro st _ _ r hr; exact absurd hr (List.not_mem_nil r)
  | cons q t ih =>
    intro st hnd hsep r hr hc he
    rw [List.map_cons, List.nodup_cons] at hnd
    rw [List.foldl_cons]
    rcases List.mem_cons.mp hr with rfl | hrt
    · have hfs := step_continue_fs final_dir r st hc he
      constructor
      · refine normalFold_mem_of_mem final_dir t _ _ ?_ ?_
        · rw [hfs]; exact mem_fsMove.mpr (Or.inr rfl)
        · intro s hs
          exact hsep s (List.mem_cons_of_mem r hs) r (List.mem_cons_self r t)
      · refine normalFold_not_mem final_dir t _ _ ?_ ?_
        · rw [hfs]
          intro h
          rcases mem_fsMove.mp h with ⟨_, h2⟩ | h2
          · exact h2 rfl
          · exact hsep r (List.mem_cons_self r t) r (List.mem_cons_self r t) h2.symm
        · intro s hs
          exact Ne.symm (hsep r (List.mem_cons_self r t) s (List.mem_cons_of_mem r hs))
    · have hne : r.file_path ≠ q.file_path := by
        intro h
        exact hnd.1 (h ▸ List.mem_map_of_mem (fun x => x.file_path) hrt)
      refine ih _ hnd.2
        (fun a ha b hb => hsep a (List.mem_cons_of_mem q ha) b (List.mem_cons_of_mem q hb))
        r hrt hc (step_mem_of_mem final_dir q st r.file_path he hne)

/-- Normal-mode routing of a `re-roll` artifact with an existing staging
file: afterwards the artifact exists in neither staging nor final
storage. -/
theorem normalFold_reroll (final_dir : String) :
    ∀ (l : List ReviewResult) (st : VerdictOutcome),
      (l.map (fun r => r.file_path)).Nodup →
      ((l.map (finalPathOf final_dir)).Nodup) →
      (∀ r ∈ l, ∀ q ∈ l, finalPathOf final_dir q ≠ r.file_path) →
      (∀ r ∈ l, finalPathOf final_dir r ∉ st.fs) →
      ∀ r ∈ l, r.verdict = "re-roll" → r.file_path ∈ st.fs →
        r.file_path ∉ (l.foldl (processVerdictStep final_dir) st).fs ∧
        finalPathOf final_dir r ∉ (l.foldl (processVerdictStep final_dir) st).fs := by
  intro l
  induction l with
  | nil => intro st _ _ _ _ r hr; exact absurd hr (List.not_mem_nil r)
  | cons q t ih =>
    intro st hnd hfnd hsep hfresh r hr hrv he
    rw [List.map_cons, List.nodup_cons] at hnd
    rw [List.map_cons, List.nodup_cons] at hfnd
    rw [List.foldl_cons]
    rcases List.mem_cons.mp hr with rfl | hrt
    · have hcne : r.verdict ≠ "continue" := by rw [hrv]; decide
      have hfs := step_reroll_fs final_dir r st hcne hrv he
      constructor
      · refine normalFold_not_mem final_dir t _ _ ?_ ?_
        · rw [hfs]
          intro h
          exact (mem_fsRemove.mp h).2 rfl
        · intro s hs
          exact Ne.symm (hsep r (List.mem_cons_self r t) s (List.mem_cons_of_mem r hs))
      · refine normalFold_not_mem final_dir t _ _ ?_ ?_
        · rw [hfs]
          intro h
          exact hfresh r (List.mem_cons_self r t) (mem_fsRemove.mp h).1
        · intro s hs
          intro h
          exact hfnd.1 (h ▸ List.mem_map_of_mem (finalPathOf final_dir) hs)
    · have hne : r.file_path ≠ q.file_path := by
        intro h
        exact hnd.1 (h ▸ List.mem_map_of_mem (fun x => x.file_path) hrt)
      have hfr : ∀ s ∈ t, finalPathOf final_dir s ∉ (processVerdictStep final_dir st q).fs := by
        intro s hs
        refine step_not_mem final_dir q st _ (hfresh s (List.mem_cons_of_mem q hs)) ?_
        intro h
        exact hfnd.1 (h ▸ List.mem_map_of_mem (finalPathOf final_dir) hs)
      refine ih _ hnd.2 hfnd.2
        (fun a ha b hb => hsep a (List.mem_cons_of_mem q ha) b (List.mem_cons_of_mem q hb))
        hfr r hrt hrv (step_mem_of_mem final_dir q st r.file_path he hne)

/-- Normal-mode routing of an `error` (or unknown) verdict: the staging
file is left untouched. -/
theorem normalFold_error (final_dir : String) :
    ∀ (l : List ReviewResult) (st : VerdictOutcome),
      (l.map (fun r => r.file_path)).Nodup →
      ∀ r ∈ l, r.verdict ≠ "continue" → r.verdict ≠ "re-roll" → r.file_path ∈ st.fs →
        r.file_path ∈ (l.foldl (processVerdictStep final_dir) st).fs := by
  intro l
  induction l with
  | nil => intro st _ r hr; exact absurd hr (List.not_mem_nil r)
  | cons q t ih =>
    intro st hnd r hr hc hrv he
    rw [List.map_cons, List.nodup_cons] at hnd
    rw [List.foldl_cons]
    rcases List.mem_cons.mp hr with rfl | hrt
    · rw [step_error_eq final_dir r st hc hrv]
      refine normalFold_mem_of_mem final_dir t st _ he ?_
      intro s hs
      intro h
      exact hnd.1 (h ▸ List.mem_map_of_mem (fun x => x.file_path) hs)
    · have hne : r.file_path ≠ q.file_path := by
        intro h
        exact hnd.1 (h ▸ List.mem_map_of_mem (fun x => x.file_path) hrt)
      exact ih _ hnd.2 r hrt hc hrv (step_mem_of_mem final_dir q st r.file_path he hne)

/-- C4: normal-mode routing.  Under the ambient separation conditions
(staged paths pairwise distinct, final-storage destinations pairwise
distinct, no staged path coincides with a destination, and no
destination pre-exists), a `continue` artifact with an existing staging
file ends up in final storage and not in staging; a `re-roll` artifact
with an existing staging file ends up in neither location; an `error`
artifact is left untouched in staging; and the counters count exactly
the `continue` (resp. `re-roll`) artifacts whose staging file existed —
so a missing file is skipped without changing either counter. -/
theorem claim_C4_normal_mode_routing
    (review_results : List ReviewResult) (final_dir : String) (fs : FS)
    (hnd : (review_results.map (fun r => r.file_path)).Nodup)
    (hfnd : (review_results.map (finalPathOf final_dir)).Nodup)
    (hsep : ∀ r ∈ review_results, ∀ q ∈ review_results,
      finalPathOf final_dir q ≠ r.file_path)
    (hfresh : ∀ r ∈ review_results, finalPathOf final_dir r ∉ fs) :
    (process_song_verdicts review_results final_dir fs).kept_count
        = countKept review_results fs ∧
    (process_song_verdicts review_results final_dir fs).deleted_count
        = countDel review_results fs ∧
    (∀ r ∈ review_results, r.verdict = "continue" → r.file_path ∈ fs →
      finalPathOf final_dir r ∈ (process_song_verdicts review_results final_dir fs).fs ∧
      r.file_path ∉ (process_song_verdicts review_results final_dir fs).fs) ∧
    (∀ r ∈ review_results, r.verdict = "re-roll" → r.file_path ∈ fs →
      r.file_path ∉ (process_song_verdicts review_results final_dir fs).fs ∧
      finalPathOf final_dir r ∉ (process_song_verdicts review_results final_dir fs).fs) ∧
    (∀ r ∈ review_results, r.verdict ≠ "continue" → r.verdict ≠ "re-roll" →
      r.file_path ∈ fs →
      r.file_path ∈ (process_song_verdicts review_results final_dir fs).fs) := by
  have hk := normalFold_counts final_dir review_results ⟨fs, 0, 0⟩ hnd hsep
  refine ⟨?_, ?_,
    normalFold_continue final_dir review_results ⟨fs, 0, 0⟩ hnd hsep,
    normalFold_reroll final_dir review_results ⟨fs, 0, 0⟩ hnd hfnd hsep hfresh,
    normalFold_error final_dir review_results ⟨fs, 0, 0⟩ hnd⟩
  · unfold process_song_verdicts
    rw [hk.1]
    exact Nat.zero_add _
  · unfold process_song_verdicts
    rw [hk.2]
    exact Nat.zero_add _

/-- Witness for C4 at a concrete input: a kept `continue` song, a
deleted `re-roll` song and a preserved `error` song. -/
theorem claim_C4_witness :
    (process_song_verdicts
        [{ file_path := "backend/songs/temp/a.mp3", index := -1, title := "t", verdict := "continue" },
         { file_path := "backend/songs/temp/b.mp3", index := -2, title := "t", verdict := "re-roll" },
         { file_path := "backend/songs/temp/c.mp3", index := -1, title := "t", verdict := "error" }]
        "backend/songs/final_review"
        ["backend/songs/temp/a.mp3", "backend/songs/temp/b.mp3", "backend/songs/temp/c.mp3"]).kept_count = 1 ∧
    ("backend/songs/final_review/a.mp3" ∈ (process_song_verdicts
        [{ file_path := "backend/songs/temp/a.mp3", index := -1, title := "t", verdict := "continue" },
         { file_path := "backend/songs/temp/b.mp3", index := -2, title := "t", verdict := "re-roll" },
         { file_path := "backend/songs/temp/c.mp3", index := -1, title := "t", verdict := "error" }]
        "backend/songs/final_review"
        ["backend/songs/temp/a.mp3", "backend/songs/temp/b.mp3", "backend/songs/temp/c.mp3"]).fs) ∧
    ("backend/songs/temp/b.mp3" ∉ (process_song_verdicts
        [{ file_path := "backend/songs/temp/a.mp3", index := -1, title := "t", verdict := "continue" },
         { file_path := "backend/songs/temp/b.mp3", index := -2, title := "t", verdict := "re-roll" },
         { file_path := "backend/songs/temp/c.mp3", index := -1, title := "t", verdict := "error" }]
        "backend/songs/final_review"
        ["backend/songs/temp/a.mp3", "backend/songs/temp/b.mp3", "backend/songs/temp/c.mp3"]).fs) := by
  have h := claim_C4_normal_mode_routing
    [{ file_path := "backend/songs/temp/a.mp3", index := -1, title := "t", verdict := "continue" },
     { file_path := "backend/songs/temp/b.mp3", index := -2, title := "t", verdict := "re-roll" },
     { file_path := "backend/songs/temp/c.mp3", index := -1, title := "t", verdict := "error" }]
    "backend/songs/final_review"
    ["backend/songs/temp/a.mp3", "backend/songs/temp/b.mp3", "backend/songs/temp/c.mp3"]
    (by decide) (by decide) (by decide) (by decide)
  refine ⟨?_, ?_, ?_⟩
  · rw [h.1]; decide
  · exact (h.2.2.1
      { file_path := "backend/songs/temp/a.mp3", index := -1, title := "t", verdict := "continue" }
      (by decide) rfl (by decide)).1
  · exact (h.2.2.2.1
      { file_path := "backend/songs/temp/b.mp3", index := -2, title := "t", verdict := "re-roll" }
      (by decide) rfl (by decide)).1

/-! ## Lemmas about the fail-safe handler -/

/-- The final-storage destination of a fail-safe promotion
(lines 535-538). -/
def ftargetOf (final_dir : String) (s : Artifact) : String :=
  joinPath final_dir (failsafeName s.file_path)

/-- Number of candidate artifacts whose staging file exists. -/
def countMoved (l : List Artifact) (fs : FS) : Nat :=
  l.countP (fun s => fsExists fs s.file_path)

/-- Number of candidate artifacts whose staging file is absent. -/
def countAbsent (l : List Artifact) (fs : FS) : Nat :=
  l.countP (fun s => !fsExists fs s.file_path)

theorem fstep_mem_of_mem (final_dir : String) (s : Artifact)
    (st : FailsafeOutcome) (x : String) (hx : x ∈ st.fs)
    (hne : x ≠ s.file_path) : x ∈ (handleFailsafeStep final_dir st s).fs := by
  unfold handleFailsafeStep
  dsimp only
  split
  · exact mem_fsMove.mpr (Or.inl ⟨hx, hne⟩)
  · exact hx

theorem fstep_not_mem (final_dir : String) (s : Artifact)
    (st : FailsafeOutcome) (x : String) (hx : x ∉ st.fs)
    (hne : x ≠ ftargetOf final_dir s) :
    x ∉ (handleFailsafeStep final_dir st s).fs := by
  unfold handleFailsafeStep
  dsimp only
  split
  · intro h
    rcases mem_fsMove.mp h with ⟨h1, _⟩ | h1
    · exact hx h1
    · exact hne h1
  · exact hx

theorem fstep_mem_iff (final_dir : String) (s : Artifact)
    (st : FailsafeOutcome) (x : String) (hne : x ≠ s.file_path)
    (htg : x ≠ ftargetOf final_dir s) :
    x ∈ (handleFailsafeStep final_dir st s).fs ↔ x ∈ st.fs :=
  ⟨fun h => by
    unfold handleFailsafeStep at h
    dsimp only at h
    split at h
    · rcases mem_fsMove.mp h with ⟨h1, _⟩ | h1
      · exact h1
      · exact absurd h1 htg
    · exact h,
   fun h => fstep_mem_of_mem final_dir s st x h hne⟩

theorem failsafeFold_mem_of_mem (final_dir : String) :
    ∀ (l : List Artifact) (st : FailsafeOutcome) (x : String),
      x ∈ st.fs → (∀ q ∈ l, x ≠ q.file_path) →
      x ∈ (l.foldl (handleFailsafeStep final_dir) st).fs := by
  intro l
  induction l with
  | nil => intro st x hx _; exact hx
  | cons q t ih =>
    intro st x hx h
    rw [List.foldl_cons]
    exact ih _ x (fstep_mem_of_mem final_dir q st x hx (h q (List.mem_cons_self q t)))
      (fun a ha => h a (List.mem_cons_of_mem q ha))

theorem failsafeFold_not_mem (final_dir : String) :
    ∀ (l : List Artifact) (st : FailsafeOutcome) (x : String),
      x ∉ st.fs → (∀ q ∈ l, x ≠ ftargetOf final_dir q) →
      x ∉ (l.foldl (handleFailsafeStep final_dir) st).fs := by
  intro l
  induction l with
  | nil => intro st x hx _; exact hx
  | cons q t ih =>
    intro st x hx h
    rw [List.foldl_cons]
    exact ih _ x (fstep_not_mem final_dir q st x hx (h q (List.mem_cons_self q t)))
      (fun a ha => h a (List.mem_cons_of_mem q ha))

/-- The fail-safe counters: each candidate with an existing staging file
contributes one to `moved_count`, each candidate with an absent file one
to `error_count`. -/
theorem failsafeFold_counts (final_dir : String) :
    ∀ (l : List Artifact) (st : FailsafeOutcome),
      (l.map (fun s => s.file_path)).Nodup →
      (∀ s ∈ l, ∀ q ∈ l, ftargetOf final_dir q ≠ s.file_path) →
      (l.foldl (handleFailsafeStep final_dir) st).moved_count
          = st.moved_count + countMoved l st.fs ∧
      (l.foldl (handleFailsafeStep final_dir) st).error_count
          = st.error_count + countAbsent l st.fs := by
  intro l
  induction l with
  | nil => intro st _ _; exact ⟨rfl, rfl⟩
  | cons q t ih =>
    intro st hnd hsep
    rw [List.map_cons, List.nodup_cons] at hnd
    have htrans : ∀ s ∈ t,
        (s.file_path ∈ (handleFailsafeStep final_dir st q).fs ↔ s.file_path ∈ st.fs) := by
      intro s hs
      refine fstep_mem_iff final_dir q st s.file_path ?_ ?_
      · intro h
        exact hnd.1 (h ▸ List.mem_map_of_mem (fun a => a.file_path) hs)
      · exact Ne.symm (hsep s (List.mem_cons_of_mem q hs) q (List.mem_cons_self q t))
    have hcm : countMoved t (handleFailsafeStep final_dir st q).fs = countMoved t st.fs := by
      unfold countMoved
      refine List.countP_congr ?_
      intro s hs
      simp only [fsExists, decide_eq_true_eq]
      exact htrans s hs
    have hca : countAbsent t (handleFailsafeStep final_dir st q).fs = countAbsent t st.fs := by
      unfold countAbsent
      refine List.countP_congr ?_
      intro s hs
      simp only [fsExists, Bool.not_eq_true', decide_eq_false_iff_not, decide_eq_decide]
      rw [htrans s hs]
    have iht := ih (handleFailsafeStep final_dir st q) hnd.2
      (fun a ha b hb => hsep a (List.mem_cons_of_mem q ha) b (List.mem_cons_of_mem q hb))
    rw [List.foldl_cons, iht.1, iht.2, hcm, hca]
    clear iht hcm hca htrans
    unfold countMoved countAbsent handleFailsafeStep
    dsimp only
    rw [List.countP_cons, List.countP_cons]
    split
    · next he =>
      simp [he]
      omega
    · next he =>
      have h1 : fsExists st.fs q.file_path = false := by
        simpa using he
      simp [h1]
      omega

/-- A candidate with an existing staging file is promoted: afterwards
its `_FAILSAFE`-marked copy is in final storage and the staging file is
gone. -/
theorem failsafeFold_moves (final_dir : String) :
    ∀ (l : List Artifact) (st : FailsafeOutcome),
      (l.map (fun s => s.file_path)).Nodup →
      (∀ s ∈ l, ∀ q ∈ l, ftargetOf final_dir q ≠ s.file_path) →
      ∀ s ∈ l, s.file_path ∈ st.fs →
        ftargetOf final_dir s ∈ (l.foldl (handleFailsafeStep final_dir) st).fs ∧
        s.file_path ∉ (l.foldl (handleFailsafeStep final_dir) st).fs := by
  intro l
  induction l with
  | nil => intro st _ _ s hs; exact absurd hs (List.not_mem_nil s)
  | cons q t ih =>
    intro st hnd hsep s hs he
    rw [List.map_cons, List.nodup_cons] at hnd
    rw [List.foldl_cons]
    rcases List.mem_cons.mp hs with rfl | hst
    · have hfs : (handleFailsafeStep final_dir st s).fs
          = fsMove st.fs s.file_path (ftargetOf final_dir s) := by
        unfold handleFailsafeStep
        dsimp only
        rw [if_pos (fsExists_iff.mpr he)]
        rfl
      constructor
      · refine failsafeFold_mem_of_mem final_dir t _ _ ?_ ?_
        · rw [hfs]; exact mem_fsMove.mpr (Or.inr rfl)
        · intro a ha
          exact hsep a (List.mem_cons_of_mem s ha) s (List.mem_cons_self s t)
      · refine failsafeFold_not_mem final_dir t _ _ ?_ ?_
        · rw [hfs]
          intro h
          rcases mem_fsMove.mp h with ⟨_, h2⟩ | h2
          · exact h2 rfl
          · exact hsep s (List.mem_cons_self s t) s (List.mem_cons_self s t) h2.symm
        · intro a ha
          exact Ne.symm (hsep s (List.mem_cons_self s t) a (List.mem_cons_of_mem s ha))
    · have hne : s.file_path ≠ q.file_path := by
        intro h
        exact hnd.1 (h ▸ List.mem_map_of_mem (fun a => a.file_path) hst)
      exact ih _ hnd.2
        (fun a ha b hb => hsep a (List.mem_cons_of_mem q ha) b (List.mem_cons_of_mem q hb))
        s hst (fstep_mem_of_mem final_dir q st s.file_path he hne)

/-- After one fail-safe pass no candidate's staging path remains in the
filesystem (present files were moved away, absent files stay absent). -/
theorem failsafeFold_clears (final_dir : String)
    (l : List Artifact) (fs : FS)
    (hnd : (l.map (fun s => s.file_path)).Nodup)
    (hsep : ∀ s ∈ l, ∀ q ∈ l, ftargetOf final_dir q ≠ s.file_path) :
    ∀ s ∈ l, s.file_path ∉ (handle_failsafe_songs l final_dir fs).fs := by
  intro s hs
  by_cases he : s.file_path ∈ fs
  · exact (failsafeFold_moves final_dir l ⟨fs, 0, 0⟩ hnd hsep s hs he).2
  · refine failsafeFold_not_mem final_dir l ⟨fs, 0, 0⟩ _ he ?_
    intro q hq
    exact Ne.symm (hsep s hs q hq)

/-- C3: `handle_failsafe_songs` moves each candidate whose staging file
still exists to final storage under its name with the `_FAILSAFE` marker
inserted before the extension, counts candidates with an absent file as
errors without raising, returns the two counts, and is idempotent
against missing files: a second invocation on the same candidate set
moves nothing (`moved_count = 0`) and reports every candidate as an
error, again without raising. -/
theorem claim_C3_failsafe_handler
    (songs : List Artifact) (final_dir : String) (fs : FS)
    (hnd : (songs.map (fun s => s.file_path)).Nodup)
    (hsep : ∀ s ∈ songs, ∀ q ∈ songs, ftargetOf final_dir q ≠ s.file_path) :
    (handle_failsafe_songs songs final_dir fs).moved_count = countMoved songs fs ∧
    (handle_failsafe_songs songs final_dir fs).error_count = countAbsent songs fs ∧
    (∀ s ∈ songs, s.file_path ∈ fs →
      ftargetOf final_dir s ∈ (handle_failsafe_songs songs final_dir fs).fs ∧
      s.file_path ∉ (handle_failsafe_songs songs final_dir fs).fs) ∧
    (∀ s ∈ songs, ftargetOf final_dir s = joinPath final_dir
      ((splitext (basename s.file_path)).1 ++ "_FAILSAFE"
        ++ (splitext (basename s.file_path)).2)) ∧
    (handle_failsafe_songs songs final_dir
        (handle_failsafe_songs songs final_dir fs).fs).moved_count = 0 ∧
    (handle_failsafe_songs songs final_dir
        (handle_failsafe_songs songs final_dir fs).fs).error_count = songs.length := by
  have hc := failsafeFold_counts final_dir songs ⟨fs, 0, 0⟩ hnd hsep
  have hcl := failsafeFold_clears final_dir songs fs hnd hsep
  have hc2 := failsafeFold_counts final_dir songs
    ⟨(handle_failsafe_songs songs final_dir fs).fs, 0, 0⟩ hnd hsep
  refine ⟨?_, ?_, failsafeFold_moves final_dir songs ⟨fs, 0, 0⟩ hnd hsep, ?_, ?_, ?_⟩
  · unfold handle_failsafe_songs
    rw [hc.1]
    exact Nat.zero_add _
  · unfold handle_failsafe_songs
    rw [hc.2]
    exact Nat.zero_add _
  · intro s _
    unfold ftargetOf failsafeName
    rfl
  · unfold handle_failsafe_songs at hc2 ⊢
    rw [hc2.1, Nat.zero_add]
    unfold countMoved
    rw [List.countP_eq_zero]
    intro s hs
    simp only [fsExists, decide_eq_true_eq]
    exact hcl s hs
  · unfold handle_failsafe_songs at hc2 ⊢
    rw [hc2.2, Nat.zero_add]
    unfold countAbsent
    rw [List.countP_eq_length]
    intro s hs
    simp only [fsExists, Bool.not_eq_true', decide_eq_false_iff_not]
    exact hcl s hs

/-- Witness for C3 at a concrete input: two staged candidates and one
already-missing candidate; the staged ones are promoted under marked
names, the missing one is counted as an error, and a second invocation
moves nothing. -/
theorem claim_C3_witness :
    (handle_failsafe_songs
        [{ file_path := "backend/songs/temp/a.mp3", index := -1, title := "t" },
         { file_path := "backend/songs/temp/b.mp3", index := -2, title := "t" },
         { file_path := "backend/songs/temp/c.mp3", index := -1, title := "t" }]
        "backend/songs/final_review"
        ["backend/songs/temp/a.mp3", "backend/songs/temp/b.mp3"]).moved_count = 2 ∧
    ("backend/songs/final_review/a_FAILSAFE.mp3" ∈ (handle_failsafe_songs
        [{ file_path := "backend/songs/temp/a.mp3", index := -1, title := "t" },
         { file_path := "backend/songs/temp/b.mp3", index := -2, title := "t" },
         { file_path := "backend/songs/temp/c.mp3", index := -1, title := "t" }]
        "backend/songs/final_review"
        ["backend/songs/temp/a.mp3", "backend/songs/temp/b.mp3"]).fs) ∧
    (handle_failsafe_songs
        [{ file_path := "backend/songs/temp/a.mp3", index := -1, title := "t" },
         { file_path := "backend/songs/temp/b.mp3", index := -2, title := "t" },
         { file_path := "backend/songs/temp/c.mp3", index := -1, title := "t" }]
        "backend/songs/final_review"
        (handle_failsafe_songs
          [{ file_path := "backend/songs/temp/a.mp3", index := -1, title := "t" },
           { file_path := "backend/songs/temp/b.mp3", index := -2, title := "t" },
           { file_path := "backend/songs/temp/c.mp3", index := -1, title := "t" }]
          "backend/songs/final_review"
          ["backend/songs/temp/a.mp3", "backend/songs/temp/b.mp3"]).fs).moved_count = 0 := by
  have h := claim_C3_failsafe_handler
    [{ file_path := "backend/songs/temp/a.mp3", index := -1, title := "t" },
     { file_path := "backend/songs/temp/b.mp3", index := -2, title := "t" },
     { file_path := "backend/songs/temp/c.mp3", index := -1, title := "t" }]
    "backend/songs/final_review"
    ["backend/songs/temp/a.mp3", "backend/songs/temp/b.mp3"]
    (by decide) (by decide)
  refine ⟨?_, ?_, h.2.2.2.2.1⟩
  · rw [h.1]; decide
  · exact (h.2.2.1
      { file_path := "backend/songs/temp/a.mp3", index := -1, title := "t" }
      (by decide) (by decide)).1

/-- C6: the review step is total over its input: exactly one verdict
record per downloaded artifact, in retrieval order, each record carrying
the artifact's identity and the verdict computed by `call_review_api`;
and any exception raised by the review call is absorbed into the verdict
`"error"` instead of propagating. -/
theorem claim_C6_review_step_total
    (endpoint : String → Int → Except String ReviewResponse)
    (downloaded_songs : List Artifact) (song_structure_id : Option Int) :
    (review_all_songs endpoint downloaded_songs song_structure_id).length
        = downloaded_songs.length ∧
    (∀ (i : Nat) (a : Artifact), downloaded_songs[i]? = some a →
      (review_all_songs endpoint downloaded_songs song_structure_id)[i]?
        = some { file_path := a.file_path, index := a.index, title := a.title,
                 verdict := (call_review_api endpoint a.file_path song_structure_id).verdict }) ∧
    (∀ (i : Nat) (a : Artifact) (e : String), downloaded_songs[i]? = some a →
      endpoint a.file_path (song_structure_id.getD 0) = .error e →
      ((review_all_songs endpoint downloaded_songs song_structure_id)[i]?.map
        (fun r => r.verdict)) = some "error") := by
  refine ⟨List.length_map downloaded_songs _, ?_, ?_⟩
  · intro i a ha
    unfold review_all_songs
    rw [List.getElem?_map, ha]
    rfl
  · intro i a e ha hend
    unfold review_all_songs
    rw [List.getElem?_map, ha]
    dsimp only [Option.map]
    unfold call_review_api
    rw [hend]

/-- Witness for C6 at a concrete input: a review endpoint that raises is
absorbed into the verdict `"error"` for the affected artifact. -/
theorem claim_C6_witness :
    ((review_all_songs (fun _ _ => Except.error "connection lost")
        [{ file_path := "backend/songs/temp/a.mp3", index := -1, title := "t" }]
        none)[0]?.map (fun r => r.verdict)) = some "error" :=
  (claim_C6_review_step_total (fun _ _ => Except.error "connection lost")
      [{ file_path := "backend/songs/temp/a.mp3", index := -1, title := "t" }]
      none).2.2 0
    { file_path := "backend/songs/temp/a.mp3", index := -1, title := "t" }
    "connection lost" rfl rfl

/-! ## Lemmas about one attempt of the orchestrator -/

/-- Shape of an attempt outcome relative to the trace `base` at attempt
entry: the attempt appends only events of its own number; an immediate
return means the routing kept songs, and the returned result carries
those fields; a continue outcome has a zero-kept routing (when routing
ran at all); a raised outcome never records a routing step and keeps
the attempt number in the pending record. -/
def attemptShape (n : Nat) (base : List Event) (out : BodyResult) : Prop :=
  ∃ new, out.stOf.trace = base ++ new ∧ (∀ e ∈ new, eventAttempt e = some n) ∧
    (∀ st' res, out = .normal st' (some res) →
      res.success = true ∧ res.total_attempts = n ∧ 0 < res.final_songs_count ∧
      res.workflow_details = st'.details ∧
      res.good_songs.isSome = true ∧ res.re_rolled_songs.isSome = true ∧
      res.error.isSome = false ∧
      (∀ mode k, Event.routeStep n mode k ∈ new → k = res.final_songs_count)) ∧
    (∀ st', out = .normal st' none →
      ∀ mode k, Event.routeStep n mode k ∈ new → k = 0) ∧
    (∀ st' rec msg, out = .raised st' rec msg →
      rec.attempt_number = n ∧ ∀ mode k, Event.routeStep n mode k ∉ new)

theorem finishAttempt_some (n : Nat) (st : WFState) (rec : AttemptRecord)
    (kept deleted : Nat) (h : 0 < kept) :
    ∃ st' res, finishAttempt n st rec kept deleted = .normal st' (some res) ∧
      st'.trace = st.trace ∧ res.success = true ∧ res.total_attempts = n ∧
      res.final_songs_count = kept ∧ res.workflow_details = st'.details ∧
      res.good_songs.isSome = true ∧ res.re_rolled_songs.isSome = true ∧
      res.error.isSome = false := by
  unfold finishAttempt
  rw [if_pos h]
  exact ⟨_, _, rfl, rfl, rfl, rfl, rfl, rfl, rfl, rfl, rfl⟩

theorem finishAttempt_none (n : Nat) (st : WFState) (rec : AttemptRecord)
    (deleted : Nat) :
    ∃ st', finishAttempt n st rec 0 deleted = .normal st' none ∧
      st'.trace = st.trace := by
  unfold finishAttempt
  rw [if_neg (by omega)]
  exact ⟨_, rfl, rfl⟩

theorem routeStage_shape (env : AttemptEnv) (n : Nat) (fd : String)
    (st : WFState) (rec : AttemptRecord) (reviews : List ReviewResult)
    (hrec : rec.attempt_number = n) :
    attemptShape n st.trace (routeStage env n fd st rec reviews) := by
  unfold routeStage
  cases hexc : env.routeStepExc with
  | some e =>
    refine ⟨[], by simp [BodyResult.stOf], by simp, ?_, ?_, ?_⟩
    · intro st' res h; exact BodyResult.noConfusion h
    · intro st' h; exact BodyResult.noConfusion h
    · intro st' r m h
      injection h with h1 h2 h3
      subst h2
      exact ⟨hrec, fun mode k hm => List.not_mem_nil _ hm⟩
  | none =>
    dsimp only
    rcases Nat.eq_zero_or_pos (routedNums n fd reviews st.fs).kept_count with h0 | h0
    · rw [h0]
      obtain ⟨st', heq, htr⟩ := finishAttempt_none n _ rec
        (routedNums n fd reviews st.fs).deleted_count
      rw [heq]
      refine ⟨[Event.routeStep n (decide (n = max_attempts))
          (routedNums n fd reviews st.fs).kept_count],
        by rw [BodyResult.stOf, htr, h0], ?_, ?_, ?_, ?_⟩
      · intro e he
        rw [List.mem_singleton] at he
        subst he
        rfl
      · intro st'' res h
        injection h with h1 h2
        exact Option.noConfusion h2
      · intro st'' h mode k hm
        rw [h0, List.mem_singleton] at hm
        injection hm with hm1 hm2 hm3
      · intro st'' r m h
        exact BodyResult.noConfusion h
    · obtain ⟨st', res, heq, htr, hsu, hta, hfc, hwd, hgs, hrr, herr⟩ :=
        finishAttempt_some n _ rec (routedNums n fd reviews st.fs).kept_count
          (routedNums n fd reviews st.fs).deleted_count h0
      rw [heq]
      refine ⟨[Event.routeStep n (decide (n = max_attempts))
          (routedNums n fd reviews st.fs).kept_count],
        by rw [BodyResult.stOf, htr], ?_, ?_, ?_, ?_⟩
      · intro e he
        rw [List.mem_singleton] at he
        subst he
        rfl
      · intro st'' res' h
        injection h with h1 h2
        injection h2 with h2
        subst h1 h2
        refine ⟨hsu, hta, hfc ▸ h0, hwd, hgs, hrr, herr, ?_⟩
        intro mode k hm
        rw [List.mem_singleton] at hm
        injection hm with hm1 hm2 hm3
        omega
      · intro st'' h
        injection h with h1 h2
        exact Option.noConfusion h2
      · intro st'' r m h
        exact BodyResult.noConfusion h

/-- Prepending one non-routing event of the current attempt to the base
preserves the attempt shape. -/
theorem attemptShape_cons (n : Nat) (base : List Event) (e : Event)
    (he : eventAttempt e = some n)
    (hnr : ∀ mode k, e ≠ Event.routeStep n mode k) (out : BodyResult)
    (h : attemptShape n (base ++ [e]) out) : attemptShape n base out := by
  obtain ⟨new, h1, h2, h3, h4, h5⟩ := h
  refine ⟨e :: new, ?_, ?_, ?_, ?_, ?_⟩
  · rw [h1, List.append_assoc]
    rfl
  · intro x hx
    rcases List.mem_cons.mp hx with rfl | hx
    · exact he
    · exact h2 x hx
  · intro st' res hh
    obtain ⟨a1, a2, a3, a4, a5, a6, a7, a8⟩ := h3 st' res hh
    refine ⟨a1, a2, a3, a4, a5, a6, a7, ?_⟩
    intro mode k hm
    rcases List.mem_cons.mp hm with heq | hm
    · exact absurd heq.symm (hnr mode k)
    · exact a8 mode k hm
  · intro st' hh mode k hm
    rcases List.mem_cons.mp hm with heq | hm
    · exact absurd heq.symm (hnr mode k)
    · exact h4 st' hh mode k hm
  · intro st' r m hh
    obtain ⟨a1, a2⟩ := h5 st' r m hh
    refine ⟨a1, ?_⟩
    intro mode k hm
    rcases List.mem_cons.mp hm with heq | hm
    · exact absurd heq.symm (hnr mode k)
    · exact a2 mode k hm

theorem reviewStage_shape (env : AttemptEnv) (n : Nat) (fd : String)
    (ssid : Option Int) (st : WFState) (rec : AttemptRecord)
    (songs : List Artifact) (hrec : rec.attempt_number = n) :
    attemptShape n st.trace (reviewStage env n fd ssid st rec songs) := by
  unfold reviewStage
  cases hexc : env.reviewStepExc with
  | some e =>
    refine ⟨[], by simp [BodyResult.stOf], by simp, ?_, ?_, ?_⟩
    · intro st' res h; exact BodyResult.noConfusion h
    · intro st' h; exact BodyResult.noConfusion h
    · intro st' r m h
      injection h with h1 h2 h3
      subst h2
      exact ⟨hrec, fun mode k hm => List.not_mem_nil _ hm⟩
  | none =>
    dsimp only
    refine attemptShape_cons n st.trace (Event.reviewStep n songs) rfl
      (fun mode k h => Event.noConfusion h) _ ?_
    exact routeStage_shape env n fd _ _ _ hrec

theorem downloadStage_shape (env : AttemptEnv) (n : Nat) (fd t : String)
    (ssid : Option Int) (st : WFState) (rec : AttemptRecord)
    (hrec : rec.attempt_number = n) :
    attemptShape n st.trace (downloadStage env n fd t ssid st rec) := by
  unfold downloadStage
  dsimp only
  split
  · refine ⟨[Event.downloadStep n], rfl, ?_, ?_, ?_, ?_⟩
    · intro e he
      rw [List.mem_singleton] at he
      subst he
      rfl
    · intro st' res h
      injection h with h1 h2
      exact Option.noConfusion h2
    · intro st' h mode k hm
      rw [List.mem_singleton] at hm
      exact Event.noConfusion hm
    · intro st' r m h
      exact BodyResult.noConfusion h
  · split
    · refine attemptShape_cons n st.trace (Event.downloadStep n) rfl
        (fun mode k h => Event.noConfusion h) _ ?_
      exact reviewStage_shape env n fd ssid _ _ _ hrec
    · refine attemptShape_cons n st.trace (Event.downloadStep n) rfl
        (fun mode k h => Event.noConfusion h) _ ?_
      exact reviewStage_shape env n fd ssid _ _ _ hrec

/-- The master per-attempt lemma: every attempt outcome has the attempt
shape relative to the trace at attempt entry. -/
theorem runAttempt_shape (env : AttemptEnv) (n : Nat) (fd t : String)
    (ssid : Option Int) (st : WFState) :
    attemptShape n st.trace (runAttempt env n fd t ssid st) := by
  unfold runAttempt
  dsimp only
  split
  · refine ⟨[Event.genStep n], rfl, ?_, ?_, ?_, ?_⟩
    · intro e he
      rw [List.mem_singleton] at he
      subst he
      rfl
    · intro st' res h
      injection h with h1 h2
      exact Option.noConfusion h2
    · intro st' h mode k hm
      rw [List.mem_singleton] at hm
      exact Event.noConfusion hm
    · intro st' r m h
      exact BodyResult.noConfusion h
  · cases hs : env.sleepExc with
    | some e =>
      refine ⟨[Event.genStep n], rfl, ?_, ?_, ?_, ?_⟩
      · intro x hx
        rw [List.mem_singleton] at hx
        subst hx
        rfl
      · intro st' res h; exact BodyResult.noConfusion h
      · intro st' h; exact BodyResult.noConfusion h
      · intro st' r m h
        injection h with h1 h2 h3
        subst h2
        refine ⟨rfl, ?_⟩
        intro mode k hm
        rw [List.mem_singleton] at hm
        exact Event.noConfusion hm
    | none =>
      refine attemptShape_cons n st.trace (Event.genStep n) rfl
        (fun mode k h => Event.noConfusion h) _ ?_
      exact downloadStage_shape env n fd t ssid _ _ rfl

/-- The first event an attempt records is its generation step. -/
theorem runAttempt_genStep_mem (env : AttemptEnv) (n : Nat) (fd t : String)
    (ssid : Option Int) (st : WFState) :
    Event.genStep n ∈ (runAttempt env n fd t ssid st).stOf.trace := by
  unfold runAttempt
  dsimp only
  split
  · simp [BodyResult.stOf]
  · cases hs : env.sleepExc with
    | some e => simp [BodyResult.stOf]
    | none =>
      obtain ⟨new, h1, _⟩ := downloadStage_shape env n fd t ssid
        { st with
          trace := st.trace ++ [Event.genStep n],
          details := { st.details with
            total_songs_generated := st.details.total_songs_generated + 2 } }
        { attempt_number := n, generation_success := true,
          downloads := [], reviews := [], final_action := "" } rfl
      rw [h1]
      refine List.mem_append_left _ ?_
      exact List.mem_append_right _ (List.mem_singleton_self _)

/-! ## Lemmas about the retry loop -/

theorem postLoop_trace (fd : String) (st : WFState) :
    (postLoop fd st).2.trace = st.trace ∨
    (postLoop fd st).2.trace
      = st.trace ++ [Event.failsafeStep st.final_attempt_songs] := by
  unfold postLoop
  split
  · exact Or.inl rfl
  · dsimp only
    split
    · exact Or.inr rfl
    · exact Or.inr rfl

theorem postLoop_attempts (fd : String) (st : WFState) :
    (postLoop fd st).2.details.attempts = st.details.attempts := by
  unfold postLoop
  split
  · rfl
  · dsimp only
    split
    · rfl
    · rfl

theorem postLoop_result (fd : String) (st : WFState) :
    (postLoop fd st).1.success = true ∧
    (postLoop fd st).1.good_songs.isSome = true ∧
    (postLoop fd st).1.re_rolled_songs.isSome = true ∧
    (postLoop fd st).1.error.isSome = false ∧
    (postLoop fd st).1.workflow_details = (postLoop fd st).2.details := by
  unfold postLoop
  split
  · exact ⟨rfl, rfl, rfl, rfl, rfl⟩
  · dsimp only
    split
    · exact ⟨rfl, rfl, rfl, rfl, rfl⟩
    · exact ⟨rfl, rfl, rfl, rfl, rfl⟩

theorem runAttemptsFrom_zero (env : Nat → AttemptEnv) (fd t : String)
    (ssid : Option Int) (m : Nat) (st : WFState) :
    runAttemptsFrom env fd t ssid 0 m st = postLoop fd st := by
  simp only [runAttemptsFrom]

theorem runAttemptsFrom_succ_some (env : Nat → AttemptEnv) (fd t : String)
    (ssid : Option Int) (fuel m : Nat) (st st' : WFState) (res : WorkflowResult)
    (h : runAttempt (env m) m fd t ssid st = .normal st' (some res)) :
    runAttemptsFrom env fd t ssid (fuel + 1) m st = (res, st') := by
  simp only [runAttemptsFrom]
  rw [h]

theorem runAttemptsFrom_succ_none (env : Nat → AttemptEnv) (fd t : String)
    (ssid : Option Int) (fuel m : Nat) (st st' : WFState)
    (h : runAttempt (env m) m fd t ssid st = .normal st' none) :
    runAttemptsFrom env fd t ssid (fuel + 1) m st
      = runAttemptsFrom env fd t ssid fuel (m + 1) st' := by
  simp only [runAttemptsFrom]
  rw [h]

theorem runAttemptsFrom_succ_raised (env : Nat → AttemptEnv) (fd t : String)
    (ssid : Option Int) (fuel m : Nat) (st st' : WFState)
    (rec : AttemptRecord) (msg : String)
    (h : runAttempt (env m) m fd t ssid st = .raised st' rec msg) :
    runAttemptsFrom env fd t ssid (fuel + 1) m st
      = if m = max_attempts
        then (fatalResult m ("Critical error on attempt " ++ toString m ++ ": " ++ msg)
                (recordException m st' rec msg).details,
              recordException m st' rec msg)
        else runAttemptsFrom env fd t ssid fuel (m + 1)
               (recordException m st' rec msg) := by
  simp only [runAttemptsFrom]
  rw [h]

/-- The loop invariant behind C1: if the completed run's trace records a
verdict-routing step of attempt `n` with a positive kept-count `k`, the
run returned at attempt `n` with success, `total_attempts = n`,
`final_songs_count = k`, and no step of any later attempt was executed. -/
theorem loop_route (env : Nat → AttemptEnv) (fd t : String) (ssid : Option Int) :
    ∀ (fuel m : Nat) (st : WFState),
      (∀ e ∈ st.trace, ∀ j, eventAttempt e = some j → j < m) →
      (∀ j mode k, Event.routeStep j mode k ∈ st.trace → k = 0) →
      ∀ (n : Nat) (mode : Bool) (k : Nat),
        Event.routeStep n mode k ∈ (runAttemptsFrom env fd t ssid fuel m st).2.trace →
        0 < k →
        (runAttemptsFrom env fd t ssid fuel m st).1.success = true ∧
        (runAttemptsFrom env fd t ssid fuel m st).1.total_attempts = n ∧
        (runAttemptsFrom env fd t ssid fuel m st).1.final_songs_count = k ∧
        (∀ e ∈ (runAttemptsFrom env fd t ssid fuel m st).2.trace,
          ∀ j, eventAttempt e = some j → j ≤ n) := by
  intro fuel
  induction fuel with
  | zero =>
    intro m st hlt hzero n mode k hmem hk
    exfalso
    rcases postLoop_trace fd st with h | h <;>
      rw [runAttemptsFrom_zero env fd t ssid m st, h] at hmem
    · exact absurd (hzero n mode k hmem) (by omega)
    · rcases List.mem_append.mp hmem with hmem | hmem
      · exact absurd (hzero n mode k hmem) (by omega)
      · rw [List.mem_singleton] at hmem
        exact Event.noConfusion hmem
  | succ fuel ih =>
    intro m st hlt hzero n mode k hmem hk
    obtain ⟨new, htr, hnew, hsome, hnone, hraised⟩ :=
      runAttempt_shape (env m) m fd t ssid st
    cases hout : runAttempt (env m) m fd t ssid st with
    | normal st' ores =>
      cases ores with
      | some res =>
        rw [runAttemptsFrom_succ_some env fd t ssid fuel m st st' res hout] at hmem ⊢
        rw [hout] at htr hsome
        obtain ⟨a1, a2, a3, _, _, _, _, a8⟩ := hsome st' res rfl
        simp only [BodyResult.stOf] at htr
        rw [htr] at hmem
        rcases List.mem_append.mp hmem with hm | hm
        · exact absurd (hzero n mode k hm) (by omega)
        · have hn : n = m := by
            have := hnew _ hm
            simp only [eventAttempt] at this
            injection this
          subst hn
          refine ⟨a1, a2, (a8 mode k hm).symm, ?_⟩
          intro e he j hj
          rw [htr] at he
          rcases List.mem_append.mp he with he | he
          · exact Nat.le_of_lt (hlt e he j hj)
          · have := hnew e he
            rw [hj] at this
            injection this with h
            omega
      | none =>
        rw [runAttemptsFrom_succ_none env fd t ssid fuel m st st' hout] at hmem ⊢
        rw [hout] at htr hnone
        simp only [BodyResult.stOf] at htr
        refine ih (m + 1) st' ?_ ?_ n mode k hmem hk
        · intro e he j hj
          rw [htr] at he
          rcases List.mem_append.mp he with he | he
          · have := hlt e he j hj
            omega
          · have := hnew e he
            rw [hj] at this
            injection this with h
            omega
        · intro j mode' k' hm
          rw [htr] at hm
          rcases List.mem_append.mp hm with hm | hm
          · exact hzero j mode' k' hm
          · have hj : j = m := by
              have := hnew _ hm
              simp only [eventAttempt] at this
              injection this
            subst hj
            exact hnone st' rfl mode' k' hm
    | raised st' rec msg =>
      rw [runAttemptsFrom_succ_raised env fd t ssid fuel m st st' rec msg hout] at hmem ⊢
      rw [hout] at htr hraised
      simp only [BodyResult.stOf] at htr
      obtain ⟨_, hnr⟩ := hraised st' rec msg rfl
      by_cases hm3 : m = max_attempts
      · rw [if_pos hm3] at hmem ⊢
        exfalso
        have htr2 : (recordException m st' rec msg).trace = st'.trace := rfl
        rw [htr2, htr] at hmem
        rcases List.mem_append.mp hmem with hm | hm
        · exact absurd (hzero n mode k hm) (by omega)
        · have hn : n = m := by
            have := hnew _ hm
            simp only [eventAttempt] at this
            injection this
          subst hn
          exact hnr mode k hm
      · rw [if_neg hm3] at hmem ⊢
        refine ih (m + 1) (recordException m st' rec msg) ?_ ?_ n mode k hmem hk
        · intro e he j hj
          have htr2 : (recordException m st' rec msg).trace = st'.trace := rfl
          rw [htr2, htr] at he
          rcases List.mem_append.mp he with he | he
          · have := hlt e he j hj
            omega
          · have := hnew e he
            rw [hj] at this
            injection this with h
            omega
        · intro j mode' k' hm
          have htr2 : (recordException m st' rec msg).trace = st'.trace := rfl
          rw [htr2, htr] at hm
          rcases List.mem_append.mp hm with hm | hm
          · exact hzero j mode' k' hm
          · have hj : j = m := by
              have := hnew _ hm
              simp only [eventAttempt] at this
              injection this
            subst hj
            exact absurd hm (hnr mode' k')

/-- C1: if the verdict routing of attempt `n` yields a positive
kept-count `k` (the run's trace records `routeStep n _ k` with
`0 < k`), then `execute_song_workflow` returns at that attempt with
`success = true`, `total_attempts = n` and `final_songs_count = k`, and
no generation, retrieval, review or routing step of any attempt after
`n` is executed. -/
theorem claim_C1_immediate_return (env : Nat → AttemptEnv) (title : String)
    (ssid : Option Int) (fs0 : FS) (n : Nat) (mode : Bool) (k : Nat)
    (hmem : Event.routeStep n mode k
      ∈ (execute_song_workflow env title ssid fs0).2.trace)
    (hk : 0 < k) :
    (execute_song_workflow env title ssid fs0).1.success = true ∧
    (execute_song_workflow env title ssid fs0).1.total_attempts = n ∧
    (execute_song_workflow env title ssid fs0).1.final_songs_count = k ∧
    (∀ e ∈ (execute_song_workflow env title ssid fs0).2.trace,
      ∀ j, eventAttempt e = some j → j ≤ n) := by
  unfold execute_song_workflow at hmem ⊢
  exact loop_route env verify_final_destination_folder title ssid max_attempts 1
    (initState fs0)
    (fun e he => absurd he (List.not_mem_nil e))
    (fun j mode' k' hm => absurd hm (List.not_mem_nil _))
    n mode k hmem hk

/-- A fully successful external world: generation succeeds, both
downloads succeed, every review returns `continue`. -/
def envAllContinue : Nat → AttemptEnv := fun _ =>
  { gen := .ok true,
    sleepExc := none,
    dl := fun i => .ok { success := true,
                         file_path := "backend/songs/temp/s" ++ toString i ++ ".mp3" },
    reviewStepExc := none,
    rev := fun _ _ => .ok { success := true, verdict := "continue", error := none },
    routeStepExc := none }

/-- Witness for C1 at a concrete input: with both songs approved on
attempt 1, the run returns immediately with two kept songs. -/
theorem claim_C1_witness :
    (execute_song_workflow envAllContinue "t" none []).1.success = true ∧
    (execute_song_workflow envAllContinue "t" none []).1.total_attempts = 1 ∧
    (execute_song_workflow envAllContinue "t" none []).1.final_songs_count = 2 := by
  have h := claim_C1_immediate_return envAllContinue "t" none [] 1 false 2
    (by decide) (by decide)
  exact ⟨h.1, h.2.1, h.2.2.1⟩

theorem runAttempt_trace_mono (env : AttemptEnv) (n : Nat) (fd t : String)
    (ssid : Option Int) (st : WFState) :
    ∀ e ∈ st.trace, e ∈ (runAttempt env n fd t ssid st).stOf.trace := by
  obtain ⟨new, h1, _⟩ := runAttempt_shape env n fd t ssid st
  intro e he
  rw [h1]
  exact List.mem_append_left _ he

theorem finishAttempt_attempts (n : Nat) (st : WFState) (rec : AttemptRecord)
    (kept deleted : Nat) :
    ∀ r ∈ st.details.attempts,
      r ∈ (finishAttempt n st rec kept deleted).stOf.details.attempts := by
  unfold finishAttempt
  split <;> exact fun r hr => List.mem_append_left _ hr

theorem routeStage_attempts (env : AttemptEnv) (n : Nat) (fd : String)
    (st : WFState) (rec : AttemptRecord) (reviews : List ReviewResult) :
    ∀ r ∈ st.details.attempts,
      r ∈ (routeStage env n fd st rec reviews).stOf.details.attempts := by
  unfold routeStage
  cases env.routeStepExc with
  | some e => exact fun r hr => hr
  | none =>
    dsimp only
    intro r hr
    exact finishAttempt_attempts n _ rec _ _ r hr

theorem reviewStage_attempts (env : AttemptEnv) (n : Nat) (fd : String)
    (ssid : Option Int) (st : WFState) (rec : AttemptRecord)
    (songs : List Artifact) :
    ∀ r ∈ st.details.attempts,
      r ∈ (reviewStage env n fd ssid st rec songs).stOf.details.attempts := by
  unfold reviewStage
  cases env.reviewStepExc with
  | some e => exact fun r hr => hr
  | none =>
    dsimp only
    intro r hr
    exact routeStage_attempts env n fd _ _ _ r hr

theorem downloadStage_attempts (env : AttemptEnv) (n : Nat) (fd t : String)
    (ssid : Option Int) (st : WFState) (rec : AttemptRecord) :
    ∀ r ∈ st.details.attempts,
      r ∈ (downloadStage env n fd t ssid st rec).stOf.details.attempts := by
  unfold downloadStage
  dsimp only
  split
  · exact fun r hr => List.mem_append_left _ hr
  · split
    · intro r hr
      exact reviewStage_attempts env n fd ssid _ _ _ r hr
    · intro r hr
      exact reviewStage_attempts env n fd ssid _ _ _ r hr

theorem runAttempt_attempts_mono (env : AttemptEnv) (n : Nat) (fd t : String)
    (ssid : Option Int) (st : WFState) :
    ∀ r ∈ st.details.attempts,
      r ∈ (runAttempt env n fd t ssid st).stOf.details.attempts := by
  unfold runAttempt
  dsimp only
  split
  · exact fun r hr => List.mem_append_left _ hr
  · cases env.sleepExc with
    | some e => exact fun r hr => hr
    | none =>
      intro r hr
      exact downloadStage_attempts env n fd t ssid _ _ r hr

theorem loop_trace_mono (env : Nat → AttemptEnv) (fd t : String)
    (ssid : Option Int) :
    ∀ (fuel m : Nat) (st : WFState),
      ∀ e ∈ st.trace, e ∈ (runAttemptsFrom env fd t ssid fuel m st).2.trace := by
  intro fuel
  induction fuel with
  | zero =>
    intro m st e he
    rw [runAttemptsFrom_zero]
    rcases postLoop_trace fd st with h | h <;> rw [h]
    · exact he
    · exact List.mem_append_left _ he
  | succ fuel ih =>
    intro m st e he
    cases hout : runAttempt (env m) m fd t ssid st with
    | normal st' ores =>
      have hmem := runAttempt_trace_mono (env m) m fd t ssid st e he
      rw [hout] at hmem
      cases ores with
      | some res =>
        rw [runAttemptsFrom_succ_some env fd t ssid fuel m st st' res hout]
        exact hmem
      | none =>
        rw [runAttemptsFrom_succ_none env fd t ssid fuel m st st' hout]
        exact ih (m + 1) st' e hmem
    | raised st' rec msg =>
      have hmem := runAttempt_trace_mono (env m) m fd t ssid st e he
      rw [hout] at hmem
      rw [runAttemptsFrom_succ_raised env fd t ssid fuel m st st' rec msg hout]
      by_cases hm : m = max_attempts
      · rw [if_pos hm]
        exact hmem
      · rw [if_neg hm]
        exact ih (m + 1) _ e hmem

theorem loop_attempts_mono (env : Nat → AttemptEnv) (fd t : String)
    (ssid : Option Int) :
    ∀ (fuel m : Nat) (st : WFState),
      ∀ r ∈ st.details.attempts,
        r ∈ (runAttemptsFrom env fd t ssid fuel m st).2.details.attempts := by
  intro fuel
  induction fuel with
  | zero =>
    intro m st r hr
    rw [runAttemptsFrom_zero, postLoop_attempts]
    exact hr
  | succ fuel ih =>
    intro m st r hr
    cases hout : runAttempt (env m) m fd t ssid st with
    | normal st' ores =>
      have hmem := runAttempt_attempts_mono (env m) m fd t ssid st r hr
      rw [hout] at hmem
      cases ores with
      | some res =>
        rw [runAttemptsFrom_succ_some env fd t ssid fuel m st st' res hout]
        exact hmem
      | none =>
        rw [runAttemptsFrom_succ_none env fd t ssid fuel m st st' hout]
        exact ih (m + 1) st' r hmem
    | raised st' rec msg =>
      have hmem := runAttempt_attempts_mono (env m) m fd t ssid st r hr
      rw [hout] at hmem
      have hmem2 : r ∈ (recordException m st' rec msg).details.attempts :=
        List.mem_append_left _ hmem
      rw [runAttemptsFrom_succ_raised env fd t ssid fuel m st st' rec msg hout]
      by_cases hm : m = max_attempts
      · rw [if_pos hm]
        exact hmem2
      · rw [if_neg hm]
        exact ih (m + 1) _ r hmem2

/-- Field discipline of the aggregate result: `good_songs` and
`re_rolled_songs` are present exactly on the success-true return paths,
`error` exactly on the fatal path, and the returned `workflow_details`
is the final attempt history. -/
theorem loop_fields (env : Nat → AttemptEnv) (fd t : String)
    (ssid : Option Int) :
    ∀ (fuel m : Nat) (st : WFState),
      ((runAttemptsFrom env fd t ssid fuel m st).1.good_songs.isSome
        = (runAttemptsFrom env fd t ssid fuel m st).1.success) ∧
      ((runAttemptsFrom env fd t ssid fuel m st).1.re_rolled_songs.isSome
        = (runAttemptsFrom env fd t ssid fuel m st).1.success) ∧
      ((runAttemptsFrom env fd t ssid fuel m st).1.error.isSome
        = !(runAttemptsFrom env fd t ssid fuel m st).1.success) ∧
      ((runAttemptsFrom env fd t ssid fuel m st).1.workflow_details
        = (runAttemptsFrom env fd t ssid fuel m st).2.details) := by
  intro fuel
  induction fuel with
  | zero =>
    intro m st
    rw [runAttemptsFrom_zero]
    obtain ⟨h1, h2, h3, h4, h5⟩ := postLoop_result fd st
    rw [h1, h2, h3, h4]
    exact ⟨rfl, rfl, rfl, h5⟩
  | succ fuel ih =>
    intro m st
    cases hout : runAttempt (env m) m fd t ssid st with
    | normal st' ores =>
      cases ores with
      | some res =>
        rw [runAttemptsFrom_succ_some env fd t ssid fuel m st st' res hout]
        obtain ⟨new, _, _, hsome, _, _⟩ := runAttempt_shape (env m) m fd t ssid st
        rw [hout] at hsome
        obtain ⟨a1, _, _, a4, a5, a6, a7, _⟩ := hsome st' res rfl
        rw [a1, a5, a6, a4]
        refine ⟨rfl, rfl, ?_, rfl⟩
        rw [Bool.not_true]
        exact a7
      | none =>
        rw [runAttemptsFrom_succ_none env fd t ssid fuel m st st' hout]
        exact ih (m + 1) st'
    | raised st' rec msg =>
      rw [runAttemptsFrom_succ_raised env fd t ssid fuel m st st' rec msg hout]
      by_cases hm : m = max_attempts
      · rw [if_pos hm]
        exact ⟨rfl, rfl, rfl, rfl⟩
      · rw [if_neg hm]
        exact ih (m + 1) _

/-- Every executed attempt begins by recording its generation step. -/
theorem loop_genStep (env : Nat → AttemptEnv) (fd t : String)
    (ssid : Option Int) :
    ∀ (fuel m : Nat) (st : WFState),
      Event.genStep m ∈ (runAttemptsFrom env fd t ssid (fuel + 1) m st).2.trace := by
  intro fuel m st
  have hg := runAttempt_genStep_mem (env m) m fd t ssid st
  cases hout : runAttempt (env m) m fd t ssid st with
  | normal st' ores =>
    rw [hout] at hg
    cases ores with
    | some res =>
      rw [runAttemptsFrom_succ_some env fd t ssid fuel m st st' res hout]
      exact hg
    | none =>
      rw [runAttemptsFrom_succ_none env fd t ssid fuel m st st' hout]
      exact loop_trace_mono env fd t ssid fuel (m + 1) st' _ hg
  | raised st' rec msg =>
    rw [hout] at hg
    rw [runAttemptsFrom_succ_raised env fd t ssid fuel m st st' rec msg hout]
    by_cases hm : m = max_attempts
    · rw [if_pos hm]
      exact hg
    · rw [if_neg hm]
      exact loop_trace_mono env fd t ssid fuel (m + 1) _ _ hg

theorem reaches_bounds {env : Nat → AttemptEnv} {fd t : String}
    {ssid : Option Int} {st0 : WFState} {n : Nat} {st : WFState}
    (h : Reaches env fd t ssid st0 n st) : 1 ≤ n ∧ n ≤ max_attempts := by
  induction h with
  | init => exact ⟨Nat.le_refl 1, by rw [max_attempts]; omega⟩
  | next n st st' hlt _ _ ih => omega
  | nextRaised n st st' rec msg hlt _ _ ih => omega

/-- Connecting reachability to the full run: if the loop reaches attempt
`n` in state `st`, the full run equals the loop restarted at `n` with
the matching remaining fuel. -/
theorem reaches_run {env : Nat → AttemptEnv} {fd t : String}
    {ssid : Option Int} {st0 : WFState} {n : Nat} {st : WFState}
    (h : Reaches env fd t ssid st0 n st) :
    runAttemptsFrom env fd t ssid max_attempts 1 st0
      = runAttemptsFrom env fd t ssid (max_attempts + 1 - n) n st := by
  induction h with
  | init => rfl
  | next n st st' hlt hr hout ih =>
    rw [ih]
    have h3 : max_attempts = 3 := rfl
    have hfuel : max_attempts + 1 - n = (max_attempts + 1 - (n + 1)) + 1 := by
      have := (reaches_bounds hr).1
      omega
    rw [hfuel]
    exact runAttemptsFrom_succ_none env fd t ssid _ n st st' hout
  | nextRaised n st st' rec msg hlt hr hout ih =>
    rw [ih]
    have h3 : max_attempts = 3 := rfl
    have hfuel : max_attempts + 1 - n = (max_attempts + 1 - (n + 1)) + 1 := by
      have := (reaches_bounds hr).1
      omega
    rw [hfuel]
    rw [runAttemptsFrom_succ_raised env fd t ssid _ n st st' rec msg hout,
      if_neg (by omega)]

/-- No fail-safe step can appear in the trace before the loop ends. -/
theorem reaches_nofailsafe {env : Nat → AttemptEnv} {fd t : String}
    {ssid : Option Int} {fs0 : FS} {n : Nat} {st : WFState}
    (h : Reaches env fd t ssid (initState fs0) n st) :
    ∀ songs, Event.failsafeStep songs ∉ st.trace := by
  induction h with
  | init => exact fun songs hm => List.not_mem_nil _ hm
  | next n st st' hlt hr hout ih =>
    intro songs hm
    obtain ⟨new, h1, h2, _⟩ := runAttempt_shape (env n) n fd t ssid st
    rw [hout] at h1
    simp only [BodyResult.stOf] at h1
    rw [h1] at hm
    rcases List.mem_append.mp hm with hm | hm
    · exact ih songs hm
    · have h3 := h2 _ hm
      rw [show eventAttempt (Event.failsafeStep songs) = none from rfl] at h3
      exact Option.noConfusion h3
  | nextRaised n st st' rec msg hlt hr hout ih =>
    intro songs hm
    obtain ⟨new, h1, h2, _⟩ := runAttempt_shape (env n) n fd t ssid st
    rw [hout] at h1
    simp only [BodyResult.stOf] at h1
    have htr : (recordException n st' rec msg).trace = st'.trace := rfl
    rw [htr, h1] at hm
    rcases List.mem_append.mp hm with hm | hm
    · exact ih songs hm
    · have h3 := h2 _ hm
      rw [show eventAttempt (Event.failsafeStep songs) = none from rfl] at h3
      exact Option.noConfusion h3

theorem finishAttempt_final_songs (n : Nat) (st : WFState)
    (rec : AttemptRecord) (kept deleted : Nat) :
    (finishAttempt n st rec kept deleted).stOf.final_attempt_songs
      = st.final_attempt_songs := by
  unfold finishAttempt
  split <;> rfl

theorem routeStage_final_songs (env : AttemptEnv) (n : Nat) (fd : String)
    (st : WFState) (rec : AttemptRecord) (reviews : List ReviewResult) :
    (routeStage env n fd st rec reviews).stOf.final_attempt_songs
      = st.final_attempt_songs := by
  unfold routeStage
  cases env.routeStepExc with
  | some e => rfl
  | none =>
    dsimp only
    rw [finishAttempt_final_songs]

theorem reviewStage_final_songs (env : AttemptEnv) (n : Nat) (fd : String)
    (ssid : Option Int) (st : WFState) (rec : AttemptRecord)
    (songs : List Artifact) :
    (reviewStage env n fd ssid st rec songs).stOf.final_attempt_songs
      = st.final_attempt_songs := by
  unfold reviewStage
  cases env.reviewStepExc with
  | some e => rfl
  | none =>
    dsimp only
    rw [routeStage_final_songs]

/-- An attempt other than the last never captures fail-safe
candidates. -/
theorem runAttempt_final_songs (env : AttemptEnv) (n : Nat) (fd t : String)
    (ssid : Option Int) (st : WFState) (hn : n ≠ max_attempts) :
    (runAttempt env n fd t ssid st).stOf.final_attempt_songs
      = st.final_attempt_songs := by
  unfold runAttempt
  dsimp only
  split
  · rfl
  · cases env.sleepExc with
    | some e => rfl
    | none =>
      unfold downloadStage
      dsimp only
      split
      · rfl
      · exact reviewStage_final_songs env n fd ssid _ _ _

/-- Before the final attempt starts, no fail-safe candidates have been
captured. -/
theorem reaches_final_empty {env : Nat → AttemptEnv} {fd t : String}
    {ssid : Option Int} {fs0 : FS} {n : Nat} {st : WFState}
    (h : Reaches env fd t ssid (initState fs0) n st) :
    st.final_attempt_songs = [] := by
  induction h with
  | init => rfl
  | next n st st' hlt hr hout ih =>
    have := runAttempt_final_songs (env n) n fd t ssid st (by omega)
    rw [hout] at this
    rw [show st'.final_attempt_songs
      = (BodyResult.normal st' none).stOf.final_attempt_songs from rfl, this, ih]
  | nextRaised n st st' rec msg hlt hr hout ih =>
    have := runAttempt_final_songs (env n) n fd t ssid st (by omega)
    rw [hout] at this
    have h2 : (recordException n st' rec msg).final_attempt_songs
        = st'.final_attempt_songs := rfl
    rw [h2, show st'.final_attempt_songs
      = (BodyResult.raised st' rec msg).stOf.final_attempt_songs from rfl, this, ih]

theorem addPaths_mono :
    ∀ (l : List Artifact) (fs : FS) (x : String), x ∈ fs →
      x ∈ l.foldl (fun a s => fsAdd a s.file_path) fs := by
  intro l
  induction l with
  | nil => intro fs x hx; exact hx
  | cons q t ih =>
    intro fs x hx
    rw [List.foldl_cons]
    exact ih _ x (mem_fsAdd.mpr (Or.inl hx))

theorem addPaths_mem :
    ∀ (l : List Artifact) (fs : FS) (a : Artifact), a ∈ l →
      a.file_path ∈ l.foldl (fun acc s => fsAdd acc s.file_path) fs := by
  intro l
  induction l with
  | nil => intro fs a ha; exact absurd ha (List.not_mem_nil a)
  | cons q t ih =>
    intro fs a ha
    rw [List.foldl_cons]
    rcases List.mem_cons.mp ha with rfl | ha
    · exact addPaths_mono t _ _ (mem_fsAdd.mpr (Or.inr rfl))
    · exact ih _ a ha

/-- If an attempt raises after having captured fail-safe candidates,
every captured artifact's staged file exists in the raise-point
filesystem; otherwise the captured set is unchanged. -/
theorem runAttempt_raised_capture (env : AttemptEnv) (n : Nat) (fd t : String)
    (ssid : Option Int) (st st' : WFState) (rec : AttemptRecord) (msg : String)
    (h : runAttempt env n fd t ssid st = .raised st' rec msg) :
    st'.final_attempt_songs = st.final_attempt_songs ∨
    ∀ a ∈ st'.final_attempt_songs, a.file_path ∈ st'.fs := by
  unfold runAttempt downloadStage reviewStage routeStage finishAttempt at h
  dsimp only at h
  repeat' split at h
  all_goals
    first
      | exact BodyResult.noConfusion h
      | (injection h with h1 h2 h3
         subst h1
         exact Or.inl rfl)
      | (injection h with h1 h2 h3
         subst h1
         exact Or.inr (fun a ha => addPaths_mem _ _ a ha))

/-- A fatal (success-false) result can only come from a boundary
exception on the final attempt. -/
theorem loop_success_false (env : Nat → AttemptEnv) (fd t : String)
    (ssid : Option Int) (fs0 : FS) :
    ∀ (fuel m : Nat) (st : WFState),
      m + fuel = max_attempts + 1 →
      Reaches env fd t ssid (initState fs0) m st →
      (runAttemptsFrom env fd t ssid fuel m st).1.success = false →
      ∃ st₃ st' rec msg,
        Reaches env fd t ssid (initState fs0) max_attempts st₃ ∧
        runAttempt (env max_attempts) max_attempts fd t ssid st₃
          = .raised st' rec msg := by
  intro fuel
  induction fuel with
  | zero =>
    intro m st _ _ hfalse
    rw [runAttemptsFrom_zero] at hfalse
    rw [(postLoop_result fd st).1] at hfalse
    exact Bool.noConfusion hfalse
  | succ fuel ih =>
    intro m st harith hre hfalse
    have h3 : max_attempts = 3 := rfl
    cases hout : runAttempt (env m) m fd t ssid st with
    | normal st' ores =>
      cases ores with
      | some res =>
        rw [runAttemptsFrom_succ_some env fd t ssid fuel m st st' res hout] at hfalse
        obtain ⟨new, _, _, hsome, _, _⟩ := runAttempt_shape (env m) m fd t ssid st
        rw [hout] at hsome
        obtain ⟨a1, _⟩ := hsome st' res rfl
        rw [a1] at hfalse
        exact Bool.noConfusion hfalse
      | none =>
        rw [runAttemptsFrom_succ_none env fd t ssid fuel m st st' hout] at hfalse
        by_cases hm : m = max_attempts
        · subst hm
          have hf0 : fuel = 0 := by omega
          subst hf0
          rw [runAttemptsFrom_zero] at hfalse
          rw [(postLoop_result fd st').1] at hfalse
          exact Bool.noConfusion hfalse
        · exact ih (m + 1) st' (by omega)
            (Reaches.next m st st' (by omega) hre hout) hfalse
    | raised st' rec msg =>
      rw [runAttemptsFrom_succ_raised env fd t ssid fuel m st st' rec msg hout]
        at hfalse
      by_cases hm : m = max_attempts
      · subst hm
        exact ⟨st, st', rec, msg, hre, hout⟩
      · rw [if_neg hm] at hfalse
        exact ih (m + 1) _ (by omega)
          (Reaches.nextRaised m st st' rec msg (by omega) hre hout) hfalse

/-- The state after an attempt whose generation reported failure
(lines 92-95): the attempt record is appended and the loop advances. -/
def genfailState (n : Nat) (st : WFState) (env : AttemptEnv) : WFState :=
  { st with
    trace := st.trace ++ [Event.genStep n],
    details := appendAttempt st.details
      { attempt_number := n, generation_success := false, downloads := [],
        reviews := [],
        final_action := "generation_failed: " ++ (generate_songs env.gen).error } }

theorem runAttempt_genfail (env : AttemptEnv) (n : Nat) (fd t : String)
    (ssid : Option Int) (st : WFState)
    (h : (generate_songs env.gen).success = false) :
    runAttempt env n fd t ssid st = .normal (genfailState n st env) none := by
  unfold runAttempt
  dsimp only
  have hb : (!(generate_songs env.gen).success) = true := by rw [h]; rfl
  rw [if_pos hb]
  rfl

/-- C5: a boundary exception inside an attempt is caught, recorded in
that attempt's record (`final_action = "exception: ..."`), advances the
loop when the attempt is not the last, and produces the fatal result
(`success = false`, `total_attempts = 3`, `final_songs_count = 0`) only
on the last attempt; a fatal result conversely implies a boundary
exception on attempt 3; and exceptions inside the generation and
retrieval adapters are absorbed into reported failures rather than
propagated. -/
theorem claim_C5_attempt_boundary (env : Nat → AttemptEnv) (title : String)
    (ssid : Option Int) (fs0 : FS) :
    (∀ (n : Nat) (st st' : WFState) (rec : AttemptRecord) (msg : String),
      Reaches env verify_final_destination_folder title ssid (initState fs0) n st →
      runAttempt (env n) n verify_final_destination_folder title ssid st
        = .raised st' rec msg →
      (∃ a ∈ (execute_song_workflow env title ssid fs0).1.workflow_details.attempts,
        a.attempt_number = n ∧
        a.final_action
          = "exception: Critical error on attempt " ++ toString n ++ ": " ++ msg) ∧
      (n < max_attempts →
        Event.genStep (n + 1) ∈ (execute_song_workflow env title ssid fs0).2.trace) ∧
      (n = max_attempts →
        (execute_song_workflow env title ssid fs0).1.success = false ∧
        (execute_song_workflow env title ssid fs0).1.total_attempts = 3 ∧
        (execute_song_workflow env title ssid fs0).1.final_songs_count = 0)) ∧
    ((execute_song_workflow env title ssid fs0).1.success = false →
      ∃ st st' rec msg,
        Reaches env verify_final_destination_folder title ssid (initState fs0)
          max_attempts st ∧
        runAttempt (env max_attempts) max_attempts
          verify_final_destination_folder title ssid st = .raised st' rec msg) ∧
    (∀ e, generate_songs (Except.error e)
      = { success := false, error := "Song generation failed: " ++ e }) ∧
    (∀ (handler : Int → Except String DlRes) (ttl td e : String),
      handler (-1) = Except.error e →
      download_both_songs handler ttl td
        = { success := false, downloads := [],
            error := "Download process failed: " ++ e }) := by
  refine ⟨?_, ?_, fun e => rfl, ?_⟩
  · intro n st st' rec msg hre hra
    have hb := reaches_bounds hre
    have h3 : max_attempts = 3 := rfl
    have hrun := reaches_run hre
    have hfuel : max_attempts + 1 - n = (max_attempts - n) + 1 := by omega
    rw [hfuel] at hrun
    rw [runAttemptsFrom_succ_raised env verify_final_destination_folder title ssid
      (max_attempts - n) n st st' rec msg hra] at hrun
    obtain ⟨new, _, _, _, _, hraised⟩ :=
      runAttempt_shape (env n) n verify_final_destination_folder title ssid st
    rw [hra] at hraised
    obtain ⟨hnum, _⟩ := hraised st' rec msg rfl
    by_cases hn : n = max_attempts
    · rw [if_pos hn] at hrun
      unfold execute_song_workflow
      rw [hrun]
      refine ⟨?_, ?_, ?_⟩
      · exact ⟨{ rec with final_action :=
            "exception: Critical error on attempt " ++ toString n ++ ": " ++ msg },
          List.mem_append_right _ (List.mem_singleton_self _), hnum, rfl⟩
      · intro hlt
        omega
      · intro _
        subst hn
        exact ⟨rfl, rfl, rfl⟩
    · rw [if_neg hn] at hrun
      unfold execute_song_workflow
      rw [hrun]
      have hflds := loop_fields env verify_final_destination_folder title ssid
        (max_attempts - n) (n + 1) (recordException n st' rec msg)
      refine ⟨?_, ?_, ?_⟩
      · rw [hflds.2.2.2]
        refine ⟨{ rec with final_action :=
            "exception: Critical error on attempt " ++ toString n ++ ": " ++ msg },
          ?_, hnum, rfl⟩
        refine loop_attempts_mono env verify_final_destination_folder title ssid
          (max_attempts - n) (n + 1) (recordException n st' rec msg) _ ?_
        exact List.mem_append_right _ (List.mem_singleton_self _)
      · intro hlt
        have hfuel2 : max_attempts - n = (max_attempts - n - 1) + 1 := by omega
        rw [hfuel2]
        exact loop_genStep env verify_final_destination_folder title ssid _ (n + 1) _
      · intro heq
        exact absurd heq hn
  · intro hfalse
    exact loop_success_false env verify_final_destination_folder title ssid fs0
      max_attempts 1 (initState fs0) (by omega) Reaches.init hfalse
  · intro handler ttl td e h
    unfold download_both_songs
    rw [h]

/-- An external world whose wait raises on every attempt. -/
def envRaise : Nat → AttemptEnv := fun _ =>
  { gen := .ok true,
    sleepExc := some "boom",
    dl := fun _ => .ok { success := false, file_path := "" },
    reviewStepExc := none,
    rev := fun _ _ => .ok { success := true, verdict := "continue", error := none },
    routeStepExc := none }

/-- Witness for C5 at a concrete input: the attempt-1 exception is
recorded in attempt 1's record. -/
theorem claim_C5_witness :
    ∃ a ∈ (execute_song_workflow envRaise "t" none []).1.workflow_details.attempts,
      a.attempt_number = 1 ∧
      a.final_action = "exception: Critical error on attempt 1: boom" := by
  have h := (claim_C5_attempt_boundary envRaise "t" none []).1 1 _ _ _ "boom"
    Reaches.init rfl
  exact h.1

/-- C9 (amended): the aggregate result is returned exactly once, always
carries `success`, `message`, `total_attempts`, `final_songs_count` and
`workflow_details`, and carries `good_songs` / `re_rolled_songs` exactly
on the success-true return paths while the fatal path instead carries
`error`. -/
theorem claim_C9_result_fields (env : Nat → AttemptEnv) (title : String)
    (ssid : Option Int) (fs0 : FS) :
    ((execute_song_workflow env title ssid fs0).1.good_songs.isSome
      = (execute_song_workflow env title ssid fs0).1.success) ∧
    ((execute_song_workflow env title ssid fs0).1.re_rolled_songs.isSome
      = (execute_song_workflow env title ssid fs0).1.success) ∧
    ((execute_song_workflow env title ssid fs0).1.error.isSome
      = !(execute_song_workflow env title ssid fs0).1.success) := by
  have h := loop_fields env verify_final_destination_folder title ssid
    max_attempts 1 (initState fs0)
  exact ⟨h.1, h.2.1, h.2.2.1⟩

/-- Counterexample to C9 as stated: on the fatal path the returned dict
omits `good_songs` and `re_rolled_songs`, so not every return path
contains all seven fields. -/
theorem claim_C9_counterexample :
    (execute_song_workflow envRaise "t" none []).1.good_songs = none ∧
    (execute_song_workflow envRaise "t" none []).1.re_rolled_songs = none ∧
    (execute_song_workflow envRaise "t" none []).1.success = false := by
  decide

/-- C10: an exception raised during the final attempt's review or
routing steps — after the fail-safe candidate set was captured — makes
the workflow return the fatal result without invoking
`handle_failsafe_songs`, leaving the captured artifacts in staging. -/
theorem claim_C10_fatal_skips_failsafe (env : Nat → AttemptEnv)
    (title : String) (ssid : Option Int) (fs0 : FS) (st st' : WFState)
    (rec : AttemptRecord) (msg : String)
    (hre : Reaches env verify_final_destination_folder title ssid
      (initState fs0) max_attempts st)
    (hra : runAttempt (env max_attempts) max_attempts
      verify_final_destination_folder title ssid st = .raised st' rec msg)
    (hcap : st'.final_attempt_songs ≠ []) :
    (execute_song_workflow env title ssid fs0).1.success = false ∧
    (∀ songs, Event.failsafeStep songs
      ∉ (execute_song_workflow env title ssid fs0).2.trace) ∧
    (∀ a ∈ st'.final_attempt_songs,
      a.file_path ∈ (execute_song_workflow env title ssid fs0).2.fs) := by
  have hrun := reaches_run hre
  rw [show max_attempts + 1 - max_attempts = 0 + 1 from rfl] at hrun
  rw [runAttemptsFrom_succ_raised env verify_final_destination_folder title ssid
    0 max_attempts st st' rec msg hra, if_pos rfl] at hrun
  unfold execute_song_workflow
  rw [hrun]
  refine ⟨rfl, ?_, ?_⟩
  · intro songs hm
    obtain ⟨new, h1, h2, _⟩ :=
      runAttempt_shape (env max_attempts) max_attempts
        verify_final_destination_folder title ssid st
    rw [hra] at h1
    simp only [BodyResult.stOf] at h1
    have hm' : Event.failsafeStep songs ∈ st'.trace := hm
    rw [h1] at hm'
    rcases List.mem_append.mp hm' with hm' | hm'
    · exact reaches_nofailsafe hre songs hm'
    · have h4 := h2 _ hm'
      rw [show eventAttempt (Event.failsafeStep songs) = none from rfl] at h4
      exact Option.noConfusion h4
  · intro a ha
    rcases runAttempt_raised_capture (env max_attempts) max_attempts
      verify_final_destination_folder title ssid st st' rec msg hra with heq | hmem
    · exact absurd (heq.trans (reaches_final_empty hre)) hcap
    · exact hmem a ha

/-- An external world that rejects everything on attempts 1-2 and
crashes during the final attempt's review step, after the downloads
were staged and captured. -/
def envFinalCrash : Nat → AttemptEnv := fun n =>
  { gen := .ok true,
    sleepExc := none,
    dl := fun i => .ok { success := true,
                         file_path := "backend/songs/temp/s" ++ toString i ++ ".mp3" },
    reviewStepExc := if n = 3 then some "crash" else none,
    rev := fun _ _ => .ok { success := true, verdict := "re-roll", error := none },
    routeStepExc := none }

/-- Witness for C10 at a concrete input: the crash on attempt 3 leaves
the captured song in staging and the run fatal. -/
theorem claim_C10_witness :
    (execute_song_workflow envFinalCrash "t" none []).1.success = false ∧
    "backend/songs/temp/s-1.mp3"
      ∈ (execute_song_workflow envFinalCrash "t" none []).2.fs := by
  have h := claim_C10_fatal_skips_failsafe envFinalCrash "t" none [] _ _ _ "crash"
    (Reaches.next 2 _ _ (by decide)
      (Reaches.next 1 _ _ (by decide) Reaches.init rfl) rfl)
    rfl (by decide)
  refine ⟨h.1, ?_⟩
  exact h.2.2 { file_path := "backend/songs/temp/s-1.mp3", index := -1, title := "t" }
    (by decide)

/-- C8 (amended): when generation reports failure on all three attempts
(zero artifacts staged), the fail-safe handler is skipped — the empty
candidate set short-circuits it — and the workflow returns success true,
`total_attempts = 3`, `final_songs_count = 0`, `good_songs = 0` with the
explanatory message; no fatal result occurs without a raised exception
on the final attempt. -/
theorem claim_C8_reported_generation_failure (env : Nat → AttemptEnv)
    (title : String) (ssid : Option Int) (fs0 : FS)
    (hgen : ∀ n, 1 ≤ n → n ≤ max_attempts →
      (generate_songs (env n).gen).success = false) :
    (execute_song_workflow env title ssid fs0).1.success = true ∧
    (execute_song_workflow env title ssid fs0).1.total_attempts = 3 ∧
    (execute_song_workflow env title ssid fs0).1.final_songs_count = 0 ∧
    (execute_song_workflow env title ssid fs0).1.good_songs = some 0 ∧
    (execute_song_workflow env title ssid fs0).1.message
      = "🎼 Max attempts (3) reached. All generated songs were rejected by AI review. No songs were successfully downloaded in final attempt." ∧
    (∀ songs, Event.failsafeStep songs
      ∉ (execute_song_workflow env title ssid fs0).2.trace) := by
  have h1 := runAttempt_genfail (env 1) 1 verify_final_destination_folder title
    ssid (initState fs0) (hgen 1 (by decide) (by decide))
  have h2 := runAttempt_genfail (env 2) 2 verify_final_destination_folder title
    ssid (genfailState 1 (initState fs0) (env 1)) (hgen 2 (by decide) (by decide))
  have h3 := runAttempt_genfail (env 3) 3 verify_final_destination_folder title
    ssid (genfailState 2 (genfailState 1 (initState fs0) (env 1)) (env 2))
    (hgen 3 (by decide) (by decide))
  have hrun : execute_song_workflow env title ssid fs0
      = postLoop verify_final_destination_folder
          (genfailState 3
            (genfailState 2 (genfailState 1 (initState fs0) (env 1)) (env 2))
            (env 3)) :=
    (runAttemptsFrom_succ_none env verify_final_destination_folder title ssid
        2 1 _ _ h1).trans
      ((runAttemptsFrom_succ_none env verify_final_destination_folder title ssid
          1 2 _ _ h2).trans
        ((runAttemptsFrom_succ_none env verify_final_destination_folder title ssid
            0 3 _ _ h3).trans
          (runAttemptsFrom_zero env verify_final_destination_folder title ssid 4 _)))
  rw [hrun]
  refine ⟨rfl, rfl, rfl, rfl, rfl, ?_⟩
  intro songs hm
  have hm' : Event.failsafeStep songs
      ∈ [Event.genStep 1, Event.genStep 2, Event.genStep 3] := hm
  simp at hm'

/-- An external world whose generation handler reports failure on every
attempt. -/
def envGenFail : Nat → AttemptEnv := fun _ =>
  { gen := .ok false,
    sleepExc := none,
    dl := fun _ => .ok { success := false, file_path := "" },
    reviewStepExc := none,
    rev := fun _ _ => .ok { success := true, verdict := "continue", error := none },
    routeStepExc := none }

/-- Counterexample to C8 as stated: with reported generation failure on
all three attempts the trace contains no fail-safe step at all —
`handle_failsafe_songs` is never invoked on the empty candidate set
(the source guards it with `if final_attempt_songs:`). -/
theorem claim_C8_counterexample :
    (execute_song_workflow envGenFail "t" none []).2.trace
      = [Event.genStep 1, Event.genStep 2, Event.genStep 3] ∧
    (execute_song_workflow envGenFail "t" none []).1.success = true ∧
    (execute_song_workflow envGenFail "t" none []).1.final_songs_count = 0 := by
  decide

/-- Witness for C8 at a concrete input. -/
theorem claim_C8_witness :
    (execute_song_workflow envGenFail "t" none []).1.success = true ∧
    (execute_song_workflow envGenFail "t" none []).1.final_songs_count = 0 ∧
    (execute_song_workflow envGenFail "t" none []).1.good_songs = some 0 := by
  have h := claim_C8_reported_generation_failure envGenFail "t" none []
    (fun n _ _ => rfl)
  exact ⟨h.1, h.2.2.1, h.2.2.2.1⟩

/-- Under per-attempt conditions (generation succeeded, no boundary
exception, downloads reported success), the attempt executes both the
review step — on exactly the downloaded artifact list — and the routing
step. -/
theorem runAttempt_steps_mem (env : AttemptEnv) (n : Nat) (fd t : String)
    (ssid : Option Int) (st : WFState)
    (hgen : (generate_songs env.gen).success = true)
    (hsleep : env.sleepExc = none)
    (hdl : (download_both_songs env.dl t temp_dir).success = true)
    (hrev : env.reviewStepExc = none)
    (hroute : env.routeStepExc = none) :
    Event.reviewStep n (download_both_songs env.dl t temp_dir).downloads
      ∈ (runAttempt env n fd t ssid st).stOf.trace ∧
    ∃ mode k, Event.routeStep n mode k ∈ (runAttempt env n fd t ssid st).stOf.trace := by
  have hb1 : (!(generate_songs env.gen).success) = false := by rw [hgen]; rfl
  have hb2 : (!(download_both_songs env.dl t temp_dir).success) = false := by
    rw [hdl]; rfl
  unfold runAttempt downloadStage reviewStage routeStage finishAttempt
  dsimp only
  rw [hb1, hb2, hsleep, hrev, hroute]
  rw [if_neg (by decide : ¬(false = true)), if_neg (by decide : ¬(false = true))]
  dsimp only
  split
  · split
    · constructor
      · exact List.mem_append_left _
          (List.mem_append_right _ (List.mem_singleton_self _))
      · exact ⟨_, _, List.mem_append_right _ (List.mem_singleton_self _)⟩
    · constructor
      · exact List.mem_append_left _
          (List.mem_append_right _ (List.mem_singleton_self _))
      · exact ⟨_, _, List.mem_append_right _ (List.mem_singleton_self _)⟩
  · split
    · constructor
      · exact List.mem_append_left _
          (List.mem_append_right _ (List.mem_singleton_self _))
      · exact ⟨_, _, List.mem_append_right _ (List.mem_singleton_self _)⟩
    · constructor
      · exact List.mem_append_left _
          (List.mem_append_right _ (List.mem_singleton_self _))
      · exact ⟨_, _, List.mem_append_right _ (List.mem_singleton_self _)⟩

/-- C7: the two fetches of `download_both_songs` are independent — a
reported failure of either does not abort the other — the download list
is the concatenation of the per-position results (length 0, 1, or 2),
the success flag is true iff at least one artifact was staged, and a
single-artifact retrieval still proceeds to the review and routing
steps of the attempt. -/
theorem claim_C7_retrieval_partial_success
    (handler : Int → Except String DlRes) (d1 d2 : DlRes) (title td : String)
    (h1 : handler (-1) = .ok d1) (h2 : handler (-2) = .ok d2) :
    ((download_both_songs handler title td).downloads
      = mkArtifacts title d1 d2) ∧
    ((download_both_songs handler title td).downloads.length
      = (if d1.success then 1 else 0) + (if d2.success then 1 else 0)) ∧
    ((download_both_songs handler title td).success
      = (d1.success || d2.success)) ∧
    (d2.success = true →
      { file_path := d2.file_path, index := -2, title := title }
        ∈ (download_both_songs handler title td).downloads) ∧
    (∀ (env : Nat → AttemptEnv) (ssid : Option Int) (fs0 : FS),
      (env 1).dl = handler →
      (generate_songs (env 1).gen).success = true →
      (env 1).sleepExc = none →
      (env 1).reviewStepExc = none →
      (env 1).routeStepExc = none →
      (download_both_songs handler title temp_dir).success = true →
      Event.reviewStep 1 (download_both_songs handler title temp_dir).downloads
        ∈ (execute_song_workflow env title ssid fs0).2.trace ∧
      ∃ mode k, Event.routeStep 1 mode k
        ∈ (execute_song_workflow env title ssid fs0).2.trace) := by
  have hdl : download_both_songs handler title td
      = (if (mkArtifacts title d1 d2).isEmpty then
          { success := false, downloads := [],
            error := "Failed to download any songs" }
         else
          { success := true, downloads := mkArtifacts title d1 d2, error := "" }) := by
    unfold download_both_songs
    rw [h1, h2]
  refine ⟨?_, ?_, ?_, ?_, ?_⟩
  · rw [hdl]
    rcases hd1 : d1.success with _ | _ <;> rcases hd2 : d2.success with _ | _ <;>
      simp [mkArtifacts, hd1, hd2]
  · rw [hdl]
    rcases hd1 : d1.success with _ | _ <;> rcases hd2 : d2.success with _ | _ <;>
      simp [mkArtifacts, hd1, hd2]
  · rw [hdl]
    rcases hd1 : d1.success with _ | _ <;> rcases hd2 : d2.success with _ | _ <;>
      simp [mkArtifacts, hd1, hd2]
  · intro hd2
    rw [hdl]
    rcases hd1 : d1.success with _ | _ <;>
      simp [mkArtifacts, hd1, hd2]
  · intro env ssid fs0 henv hgen hsleep hrev hroute hsucc
    have hsm := runAttempt_steps_mem (env 1) 1 verify_final_destination_folder
      title ssid (initState fs0) hgen hsleep (by rw [henv]; exact hsucc) hrev hroute
    rw [henv] at hsm
    unfold execute_song_workflow
    cases hout : runAttempt (env 1) 1 verify_final_destination_folder title ssid
      (initState fs0) with
    | normal st' ores =>
      rw [hout] at hsm
      cases ores with
      | some res =>
        rw [show (max_attempts : Nat) = 2 + 1 from rfl,
          runAttemptsFrom_succ_some env verify_final_destination_folder title ssid
            2 1 _ _ _ hout]
        exact hsm
      | none =>
        rw [show (max_attempts : Nat) = 2 + 1 from rfl,
          runAttemptsFrom_succ_none env verify_final_destination_folder title ssid
            2 1 _ _ hout]
        obtain ⟨hm1, mode, k, hm2⟩ := hsm
        exact ⟨loop_trace_mono env verify_final_destination_folder title ssid
            2 2 st' _ hm1,
          mode, k, loop_trace_mono env verify_final_destination_folder title ssid
            2 2 st' _ hm2⟩
    | raised st' rec msg =>
      rw [hout] at hsm
      rw [show (max_attempts : Nat) = 2 + 1 from rfl,
        runAttemptsFrom_succ_raised env verify_final_destination_folder title ssid
          2 1 _ _ _ _ hout, if_neg (by decide)]
      obtain ⟨hm1, mode, k, hm2⟩ := hsm
      exact ⟨loop_trace_mono env verify_final_destination_folder title ssid
          2 2 _ _ hm1,
        mode, k, loop_trace_mono env verify_final_destination_folder title ssid
          2 2 _ _ hm2⟩

/-- An external world where the fetch at position `-1` reports failure
but the fetch at position `-2` succeeds, and the single staged song is
approved. -/
def envOneSong : Nat → AttemptEnv := fun _ =>
  { gen := .ok true,
    sleepExc := none,
    dl := fun i => .ok (if i = -2
      then { success := true, file_path := "backend/songs/temp/only.mp3" }
      else { success := false, file_path := "" }),
    reviewStepExc := none,
    rev := fun _ _ => .ok { success := true, verdict := "continue", error := none },
    routeStepExc := none }

/-- Witness for C7 at a concrete input: one of two fetches fails, the
other is staged, and review and routing still run on the single
artifact. -/
theorem claim_C7_witness :
    ((download_both_songs (envOneSong 1).dl "t" temp_dir).downloads.length = 1) ∧
    ((download_both_songs (envOneSong 1).dl "t" temp_dir).success = true) ∧
    (Event.reviewStep 1 (download_both_songs (envOneSong 1).dl "t" temp_dir).downloads
      ∈ (execute_song_workflow envOneSong "t" none []).2.trace) := by
  have h := claim_C7_retrieval_partial_success (envOneSong 1).dl
    { success := false, file_path := "" }
    { success := true, file_path := "backend/songs/temp/only.mp3" }
    "t" temp_dir rfl rfl
  refine ⟨?_, ?_, ?_⟩
  · rw [h.1]; decide
  · rw [h.2.2.1]; decide
  · exact (h.2.2.2.2 envOneSong none [] rfl rfl rfl rfl rfl (by decide)).1

/-- C2: in final-attempt mode, an artifact whose verdict is `re-roll`
or `error` is still in staging immediately after routing (provided no
other routed artifact with verdict `continue` aliases its path); the
routine deletes no file for any verdict (a path can only leave the
filesystem as the source of a `continue` move); and the returned
`deleted_count` is always `0`. -/
theorem claim_C2_final_attempt_nondestructive
    (review_results : List ReviewResult) (final_dir : String) (fs : FS) :
    (process_song_verdicts_final_attempt review_results final_dir fs).deleted_count = 0 ∧
    (∀ p, p ∈ fs →
      p ∈ (process_song_verdicts_final_attempt review_results final_dir fs).fs ∨
      ∃ q ∈ review_results, q.verdict = "continue" ∧ q.file_path = p) ∧
    (∀ r ∈ review_results, (r.verdict = "re-roll" ∨ r.verdict = "error") →
      (∀ q ∈ review_results, q.verdict = "continue" → q.file_path ≠ r.file_path) →
      r.file_path ∈ fs →
      r.file_path ∈ (process_song_verdicts_final_attempt review_results final_dir fs).fs) := by
  refine ⟨finalFold_deleted final_dir review_results _, ?_, ?_⟩
  · intro p hp
    by_cases h : ∃ q ∈ review_results, q.verdict = "continue" ∧ q.file_path = p
    · exact Or.inr h
    · push_neg at h
      exact Or.inl (finalFold_preserve final_dir review_results _ p hp
        (fun q hq hc => h q hq hc))
  · intro r _ _ hnc hr
    exact finalFold_preserve final_dir review_results _ r.file_path hr
      (fun q hq hc => hnc q hq hc)

/-- Witness for C2 at a concrete input: one `re-roll` and one `error`
artifact, both staged; both survive routing and `deleted_count = 0`. -/
theorem claim_C2_witness :
    ("a.mp3" ∈ (process_song_verdicts_final_attempt
        [{ file_path := "a.mp3", index := -1, title := "t", verdict := "re-roll" },
         { file_path := "b.mp3", index := -2, title := "t", verdict := "error" }]
        "backend/songs/final_review" ["a.mp3", "b.mp3"]).fs) ∧
    (process_song_verdicts_final_attempt
        [{ file_path := "a.mp3", index := -1, title := "t", verdict := "re-roll" },
         { file_path := "b.mp3", index := -2, title := "t", verdict := "error" }]
        "backend/songs/final_review" ["a.mp3", "b.mp3"]).deleted_count = 0 := by
  refine ⟨?_, ?_⟩
  · exact (claim_C2_final_attempt_nondestructive
      [{ file_path := "a.mp3", index := -1, title := "t", verdict := "re-roll" },
       { file_path := "b.mp3", index := -2, title := "t", verdict := "error" }]
      "backend/songs/final_review" ["a.mp3", "b.mp3"]).2.2
      { file_path := "a.mp3", index := -1, title := "t", verdict := "re-roll" }
      (by decide) (Or.inl rfl) (by decide) (by decide)
  · exact (claim_C2_final_attempt_nondestructive
      [{ file_path := "a.mp3", index := -1, title := "t", verdict := "re-roll" },
       { file_path := "b.mp3", index := -2, title := "t", verdict := "error" }]
      "backend/songs/final_review" ["a.mp3", "b.mp3"]).1
